import Mathlib

/-!
Verification of the FinPlanBot intent-extraction and guided transaction
pipeline.  The definitions below are a shallow embedding of the Python
source (src/ai_parser.py, src/main.py, src/database.py): strings are
`List Char`, the regular expressions used by the source are modelled as
executable scanners with the same leftmost / alternation-order /
greediness semantics as Python `re` for the concrete patterns involved,
and the mutable parser / session / database state is threaded explicitly.
`str.lower` and the `\s` / `\w` character classes are modelled on the
character repertoire the program actually manipulates (ASCII plus the
Arabic/Persian block); Python's digit-translation tables map the extended
Arabic-Indic digits U+06F0..U+06F9 to ASCII digits.
-/

namespace FinBot

/-- Translation of the `str.maketrans("۰۱۲۳۴۵۶۷۸۹", "0123456789")` tables
used by both `ai_parser._local_parse` and `main.fa_to_en`. -/
def faToEnChar (c : Char) : Char :=
  if 0x6F0 ≤ c.toNat ∧ c.toNat ≤ 0x6F9 then Char.ofNat (c.toNat - 0x6F0 + 48) else c

/-- Model of Python `str.lower` on the repertoire in play: ASCII letters are
lowered, every other character (Persian letters, punctuation, emoji) is
unchanged. -/
def pyLowerChar (c : Char) : Char := if 'A' ≤ c ∧ c ≤ 'Z' then Char.ofNat (c.toNat + 32) else c

/-- Model of the regex class `\s` (and of the characters stripped by
`str.strip()`): ASCII whitespace. -/
def isSpaceC (c : Char) : Bool :=
  c = ' ' || c = '\t' || c = '\n' || c = '\r' || c = '\x0b' || c = '\x0c'

/-- Model of the regex class `\w` (ASCII alphanumerics, underscore, and the
alphanumeric characters of the Arabic/Persian block). -/
def isWordC (c : Char) : Bool :=
  c.isAlphanum || c = '_' ||
  (0x621 ≤ c.toNat && c.toNat ≤ 0x63A) || (0x641 ≤ c.toNat && c.toNat ≤ 0x64A) ||
  (0x660 ≤ c.toNat && c.toNat ≤ 0x669) || (0x66E ≤ c.toNat && c.toNat ≤ 0x66F) ||
  (0x671 ≤ c.toNat && c.toNat ≤ 0x6D3) || c.toNat = 0x6D5 ||
  (0x6EE ≤ c.toNat && c.toNat ≤ 0x6EF) || (0x6F0 ≤ c.toNat && c.toNat ≤ 0x6F9) ||
  (0x6FA ≤ c.toNat && c.toNat ≤ 0x6FC) || c.toNat = 0x6FF

/-- Character class `[\w؀-ۿ]` used by the name-capturing groups. -/
def isWordFaC (c : Char) : Bool := isWordC c || (0x600 ≤ c.toNat && c.toNat ≤ 0x6FF)

/-- Python `str.strip()`. -/
def stripL (l : List Char) : List Char :=
  ((l.dropWhile isSpaceC).reverse.dropWhile isSpaceC).reverse

/-- Whether `pat` is a prefix of `s` (character-exact). -/
def startsWithL : List Char → List Char → Bool
  | _, [] => true
  | [], _ :: _ => false
  | a :: s, b :: p => a = b && startsWithL s p

/-- Python substring test `pat in s`. -/
def containsSub : List Char → List Char → Bool
  | s, pat =>
    match s with
    | [] => pat.isEmpty
    | _ :: rest => startsWithL s pat || containsSub rest pat

/-- Numeric value of a digit string (the integral value `float` assigns it). -/
def natOfDigits (l : List Char) : Nat := l.foldl (fun n c => 10 * n + (c.toNat - 48)) 0

/-- Match a literal at the head of `s`, returning the remainder. -/
def matchLit (pat : List Char) (s : List Char) : Option (List Char) :=
  if startsWithL s pat then some (s.drop pat.length) else none

/-- Case-insensitive (ASCII) literal match, for patterns compiled with
`re.IGNORECASE`. -/
def startsWithCIL : List Char → List Char → Bool
  | _, [] => true
  | [], _ :: _ => false
  | a :: s, b :: p => pyLowerChar a = pyLowerChar b && startsWithCIL s p

/-- Case-insensitive variant of `matchLit`. -/
def matchLitCI (pat : List Char) (s : List Char) : Option (List Char) :=
  if startsWithCIL s pat then some (s.drop pat.length) else none

/-- Regex `\s+`: one or more whitespace characters (greedy). -/
def matchSpaces1 : List Char → Option (List Char)
  | [] => none
  | c :: r => if isSpaceC c then some (r.dropWhile isSpaceC) else none

/-- Exactly `k` digits at the head of `s` (for counted groups like `\d{4}`). -/
def firstKDigits : Nat → List Char → Option (List Char × List Char)
  | 0, s => some ([], s)
  | _ + 1, [] => none
  | k + 1, c :: r =>
    if c.isDigit then (firstKDigits k r).map (fun p => (c :: p.1, p.2)) else none

/-- The `(?:[\s,]\d{3})+` part of the amount regex: one or more groups of a
separator followed by three digits, greedy. -/
def repSep3 : List Char → Option (List Char × List Char)
  | c :: d1 :: d2 :: d3 :: rest =>
    if (c = ',' || isSpaceC c) && d1.isDigit && d2.isDigit && d3.isDigit then
      match repSep3 rest with
      | some p => some (c :: d1 :: d2 :: d3 :: p.1, p.2)
      | none => some ([c, d1, d2, d3], rest)
    else none
  | _ => none

/-- First alternative `\d{1,3}(?:[\s,]\d{3})+` of the amount group, with the
greedy backtracking of `\d{1,3}` (three digits tried first). -/
def amountAltA (s : List Char) : Option (List Char × List Char) :=
  (do
    let p ← firstKDigits 3 s
    let q ← repSep3 p.2
    pure (p.1 ++ q.1, q.2)) <|>
  (do
    let p ← firstKDigits 2 s
    let q ← repSep3 p.2
    pure (p.1 ++ q.1, q.2)) <|>
  (do
    let p ← firstKDigits 1 s
    let q ← repSep3 p.2
    pure (p.1 ++ q.1, q.2))

/-- Second alternative `\d+` of the amount group: a maximal nonempty digit
run. -/
def amountAltB (s : List Char) : Option (List Char × List Char) :=
  match s.takeWhile Char.isDigit with
  | [] => none
  | g => some (g, s.dropWhile Char.isDigit)

/-- Group 1 of the amount regex at a fixed position (alternation order as in
the pattern). -/
def amountGroup1 (s : List Char) : Option (List Char × List Char) :=
  amountAltA s <|> amountAltB s

/-- The optional currency group
`(ir+|irr|rial|rials|ریال|toman|tomans|تومان)?` tried at a fixed position,
alternatives in pattern order (`ir+` is `i` followed by a greedy run of
`r`). -/
def currencyGroup (s : List Char) : Option (List Char) :=
  (match s with
   | 'i' :: rest =>
     match rest.takeWhile (fun c => c = 'r') with
     | [] => none
     | rs => some ('i' :: rs)
   | _ => none) <|>
  (matchLit "irr".data s).map (fun _ => "irr".data) <|>
  (matchLit "rial".data s).map (fun _ => "rial".data) <|>
  (matchLit "rials".data s).map (fun _ => "rials".data) <|>
  (matchLit "ریال".data s).map (fun _ => "ریال".data) <|>
  (matchLit "toman".data s).map (fun _ => "toman".data) <|>
  (matchLit "tomans".data s).map (fun _ => "tomans".data) <|>
  (matchLit "تومان".data s).map (fun _ => "تومان".data)

/-- Leftmost search for the amount regex
`(\d{1,3}(?:[\s,]\d{3})+|\d+)(?:\s*)(ir+|…)?`, returning the two capture
groups. -/
def amountSearch : List Char → Option (List Char × Option (List Char))
  | [] => none
  | s@(_ :: rest) =>
    match amountGroup1 s with
    | some p => some (p.1, currencyGroup (p.2.dropWhile isSpaceC))
    | none => amountSearch rest

/-- Parsed numeric value of the amount group: commas and plain spaces are
removed (the source's `.replace(",", "").replace(" ", "")`), and `float`
fails — giving `None` — if any other separator character remains. -/
def amountValOf (g1 : List Char) : Option ℚ :=
  let raw := g1.filter (fun c => !(c = ',' || c = ' '))
  if raw ≠ [] ∧ raw.all Char.isDigit then some ((natOfDigits raw : ℚ)) else none

/-- Currency normalization performed on group 2 of the amount regex. -/
def currencyOf (g2 : Option (List Char)) : Option String :=
  let cur := String.mk (stripL (g2.getD []))
  if cur ∈ (["rial", "rials", "ریال", "irr", "ir"] : List String) then some "rial"
  else if cur ∈ (["toman", "tomans", "تومان"] : List String) then some "toman"
  else none

/-- Leftmost search for the date regex: four digits, a slash-or-dash class,
two digits, a slash-or-dash class, two digits. -/
def dateSearch : List Char → Option (List Char)
  | [] => none
  | s@(_ :: rest) =>
    match s with
    | a :: b :: c :: d :: s1 :: e :: f :: s2 :: g :: h :: _ =>
      if a.isDigit && b.isDigit && c.isDigit && d.isDigit &&
         (s1 = '/' || s1 = '-') && e.isDigit && f.isDigit &&
         (s2 = '/' || s2 = '-') && g.isDigit && h.isDigit then
        some [a, b, c, d, s1, e, f, s2, g, h]
      else dateSearch rest
    | _ => dateSearch rest

/-- Time pattern `\d{1,2}:\d{2}` at a fixed position, with the greedy
backtracking of `\d{1,2}`; returns the group and the remainder. -/
def timeGroupAt (s : List Char) : Option (List Char × List Char) :=
  (match s with
   | a :: b :: ':' :: c :: d :: r =>
     if a.isDigit && b.isDigit && c.isDigit && d.isDigit then some ([a, b, ':', c, d], r)
     else none
   | _ => none) <|>
  (match s with
   | a :: ':' :: c :: d :: r =>
     if a.isDigit && c.isDigit && d.isDigit then some ([a, ':', c, d], r) else none
   | _ => none)

/-- Word-boundary test for the position after a word character: the
remainder must be empty or start with a non-word character. -/
def boundaryAfter : List Char → Bool
  | [] => true
  | c :: _ => !isWordC c

/-- Leftmost search for `\b(\d{1,2}:\d{2})\b` (the transaction time regex),
tracking the previous character for the leading boundary. -/
def timeSearchBAux : Option Char → List Char → Option (List Char)
  | _, [] => none
  | prev, s@(c :: rest) =>
    let boundaryBefore := match prev with
      | none => true
      | some p => !isWordC p
    match (if boundaryBefore then timeGroupAt s else none) with
    | some p => if boundaryAfter p.2 then some p.1 else timeSearchBAux (some c) rest
    | none => timeSearchBAux (some c) rest

/-- Leftmost search for `\b(\d{1,2}:\d{2})\b`. -/
def timeSearchB (s : List Char) : Option (List Char) := timeSearchBAux none s

/-- Leftmost search for the plain time regex `(\d{1,2}:\d{2})` (no word
boundaries) used by the quick-plan stage. -/
def timeSearchNB : List Char → Option (List Char)
  | [] => none
  | s@(_ :: rest) =>
    match timeGroupAt s with
    | some p => some p.1
    | none => timeSearchNB rest

/-- Balance keyword alternatives `(?:balance|bal|موجودی|مانده)` followed by
`\s*[:：]?\s*` and the amount group, at a fixed position. -/
def balanceGroupAt (s : List Char) : Option (List Char) :=
  ((matchLit "balance".data s) <|> (matchLit "bal".data s) <|>
   (matchLit "موجودی".data s) <|> (matchLit "مانده".data s)).bind fun r1 =>
    let r2 := r1.dropWhile isSpaceC
    let r3 := match r2 with
      | c :: rest => if c = ':' || c = '：' then rest else r2
      | [] => r2
    let r4 := r3.dropWhile isSpaceC
    (amountGroup1 r4).map (fun p => p.1)

/-- Leftmost search for the balance regex; the captured group is then parsed
exactly like the amount group. -/
def balanceSearch : List Char → Option (List Char)
  | [] => none
  | s@(_ :: rest) =>
    match balanceGroupAt s with
    | some g => some g
    | none => balanceSearch rest

/-- Parsed balance value (`float` of the comma/space-stripped group, `None`
on failure). -/
def balanceValOf (s : List Char) : Option ℚ := (balanceSearch s).bind amountValOf

/-- One alternative of the greeting group of the party regex: a literal
sequence, with required whitespace between its words.  Returns the matched
group text and the remainder. -/
def greetWords (ws : List (List Char)) (s : List Char) : Option (List Char × List Char) :=
  match ws with
  | [] => some ([], s)
  | [w] => (matchLitCI w s).map (fun r => (w, r))
  | w :: rest =>
    (matchLitCI w s).bind fun r1 =>
      match r1 with
      | c :: r2 =>
        if isSpaceC c then
          (greetWords rest (r2.dropWhile isSpaceC)).map fun p =>
            (w ++ [' '] ++ p.1, p.2)
        else none
      | [] => none

/-- The `dear\s+\w+` alternative of the greeting group. -/
def greetDearWord (s : List Char) : Option (List Char × List Char) :=
  (matchLitCI "dear".data s).bind fun r1 =>
    (matchSpaces1 r1).bind fun r2 =>
      match r2.takeWhile isWordC with
      | [] => none
      | w => some ("dear ".data ++ w, r2.dropWhile isWordC)

/-- The separator class `[،,:\s]` of the party regex. -/
def isPartySep (c : Char) : Bool := c = '،' || c = ',' || c = ':' || isSpaceC c

/-- The anchored party regex
`^\s*(dear|dear\s+customer|dear\s+\w+|مشتری\s+گرامی|جناب|سرکار|کاربر\s+گرامی)[،,:\s]+([\w؀-ۿ]+)?`
with `re.IGNORECASE`, applied to the digit-normalized original-case text;
returns `(group1, group2?)`. -/
def partyMatch (textNorm : List Char) : Option (List Char × Option (List Char)) :=
  let s := textNorm.dropWhile isSpaceC
  let g1 :=
    (greetWords ["dear".data] s) <|>
    (greetWords ["dear".data, "customer".data] s) <|>
    (greetDearWord s) <|>
    (greetWords ["مشتری".data, "گرامی".data] s) <|>
    (greetWords ["جناب".data] s) <|>
    (greetWords ["سرکار".data] s) <|>
    (greetWords ["کاربر".data, "گرامی".data] s)
  g1.bind fun p =>
    match p.2 with
    | c :: r =>
      if isPartySep c then
        let r2 := r.dropWhile isPartySep
        match r2.takeWhile isWordFaC with
        | [] => some (p.1, none)
        | w => some (p.1, some w)
      else none
    | [] => none

/-- The value the source assigns to `party`: group 2 if present, else
`"Bank"` when the greeting contains `dear` (lower-cased), else nothing. -/
def partyOf (textNorm : List Char) : Option String :=
  match partyMatch textNorm with
  | none => none
  | some (_, some w) => some (String.mk w)
  | some (g1, none) =>
    if containsSub (g1.map pyLowerChar) "dear".data then some "Bank" else none

/-- Leftmost search for the card-hint regex `(\d{4})\b`. -/
def last4Search : List Char → Option (List Char)
  | [] => none
  | s@(_ :: rest) =>
    match s with
    | a :: b :: c :: d :: r =>
      if a.isDigit && b.isDigit && c.isDigit && d.isDigit && boundaryAfter r then
        some [a, b, c, d]
      else last4Search rest
    | _ => none

/-- The structured result dictionary produced by `_local_parse` (and, in the
remote path, by the language model).  A `none` field models an absent
dictionary key; `sect` models the key named `section` (a reserved word
here). -/
structure ParseResult where
  sect : Option String := none
  action : String
  amount : Option ℚ := none
  type : Option String := none
  category : Option String := none
  date : Option String := none
  note : Option String := none
  currency : Option String := none
  card_hint : Option String := none
  time : Option String := none
  balance : Option ℚ := none
  party : Option String := none
  start_date : Option String := none
  end_date : Option String := none
  name : Option String := none
  card_number : Option String := none
  data_type : Option String := none
  language : Option String := none
  calendar_format : Option String := none
  title : Option String := none
  deriving DecidableEq, Repr

/-- Python truthiness filter used by the `if value: result[key] = value`
idiom: an empty string counts as absent. -/
def pyStrOptTruthy : Option String → Option String
  | some s => if s = "" then none else some s
  | none => none

/-- Python `value or default` on an optional string (empty string is falsy). -/
def pyOrStr (o : Option String) (d : String) : String :=
  match o with
  | some s => if s = "" then d else s
  | none => d

/-- An ASCII apostrophe, kept out of string literals. -/
def aposC : Char := Char.ofNat 39

/-- Substring test against each keyword of a list (`any(w in t for w in …)`). -/
def anyKw (t : List Char) (kws : List String) : Bool :=
  kws.any fun kw => containsSub t kw.data

/-- The `nav_map` table of `_local_parse`, in insertion order, paired with
the result each destination returns. -/
def navRules : List (List String × ParseResult) :=
  [ (["main menu", "منوی اصلی", "home", "خانه", "menu", "منو", "back", "بازگشت"],
     { sect := some "main", action := "menu" }),
    (["finance", "financial", "مدیریت مالی", "مالی", "transactions", "تراکنش", "تراکنش‌ها", "💰"],
     { sect := some "finance", action := "main" }),
    (["planning", "برنامه", "برنامه‌ریزی", "📅"],
     { sect := some "planning", action := "main" }),
    (["settings", "تنظیمات", "⚙️"],
     { sect := some "settings", action := "change_language" }),
    (["help", "راهنما", "how to", "نحوه"],
     { sect := some "help", action := "show" }),
    (["admin", "پنل مدیریت", "ادمین", "👑"],
     { sect := some "admin", action := "users" }),
    (["report", "reports", "گزارش", "گزارش ماهانه", "reporting"],
     { sect := some "finance", action := "monthly_report" }) ]

/-- Navigation stage: first destination (in declaration order) one of whose
keywords occurs in the lower-cased text wins. -/
def navLookup (t : List Char) : Option ParseResult :=
  navRules.findSome? fun p => if anyKw t p.1 then some p.2 else none

/-- Income keyword list of the transaction-detection stage. -/
def incomeWords : List String :=
  ["deposit", "deposited", "credited", "income", "received", "واریز", "واريز", "واریز شد", "نشست"]

/-- Expense keyword list of the transaction-detection stage. -/
def expenseWords : List String :=
  ["withdrawal", "withdrawn", "debited", "payment", "paid", "purchase", "spent", "برداشت", "خرج", "هزینه", "پرداخت"]

/-- Transaction-type detection of `_local_parse`: the income check runs
first, and the expense assignment keeps an already-set type
(`t_type = "expense" if t_type is None else t_type`). -/
def detectType (t : List Char) : Option String :=
  let t1 : Option String := if anyKw t incomeWords then some "income" else none
  if anyKw t expenseWords then (if t1 = none then some "expense" else t1) else t1

/-- Literal word, required whitespace, literal word — the `a\s+b` shape
shared by several patterns. -/
def litSeq2 (w1 w2 : String) (s : List Char) : Option (List Char) :=
  (matchLit w1.data s).bind fun r1 =>
    (matchSpaces1 r1).bind fun r2 => matchLit w2.data r2

/-- Date group of the range-report regex at a fixed position. -/
def dateGroupAt (s : List Char) : Option (List Char × List Char) :=
  match s with
  | a :: b :: c :: d :: s1 :: e :: f :: s2 :: g :: h :: r =>
    if a.isDigit && b.isDigit && c.isDigit && d.isDigit &&
       (s1 = '/' || s1 = '-') && e.isDigit && f.isDigit &&
       (s2 = '/' || s2 = '-') && g.isDigit && h.isDigit then
      some ([a, b, c, d, s1, e, f, s2, g, h], r)
    else none
  | _ => none

/-- Range-report regex at a fixed position:
`(?:report|گزارش)\s*(?:from|از)\s*(date)\s*(?:to|تا)\s*(date)`. -/
def rngAt (s : List Char) : Option (List Char × List Char) :=
  ((matchLit "report".data s) <|> (matchLit "گزارش".data s)).bind fun r1 =>
    let r2 := r1.dropWhile isSpaceC
    ((matchLit "from".data r2) <|> (matchLit "از".data r2)).bind fun r3 =>
      (dateGroupAt (r3.dropWhile isSpaceC)).bind fun p1 =>
        let r4 := p1.2.dropWhile isSpaceC
        ((matchLit "to".data r4) <|> (matchLit "تا".data r4)).bind fun r5 =>
          (dateGroupAt (r5.dropWhile isSpaceC)).map fun p2 => (p1.1, p2.1)

/-- Leftmost search for the range-report regex. -/
def rngSearch : List Char → Option (List Char × List Char)
  | [] => none
  | s@(_ :: rest) =>
    match rngAt s with
    | some p => some p
    | none => rngSearch rest

/-- Optional-name-then-digits tail of the add-card regex, with the greedy
backtracking of the optional name group `([\w؀-ۿ]+)?` (longest name first,
then absent) against the trailing `\s*(\d{12,16})`. -/
def nameDigitsTry (s : List Char) (k : Nat) : Option (String × String) :=
  let rest := (s.drop k).dropWhile isSpaceC
  let drun := rest.takeWhile Char.isDigit
  if 12 ≤ drun.length then some (String.mk (s.take k), String.mk (drun.take 16)) else none

/-- Backtracking loop over the candidate name lengths `k, k-1, …, 1, 0`. -/
def nameDigitsBk (s : List Char) : Nat → Option (String × String)
  | 0 => nameDigitsTry s 0
  | k + 1 => (nameDigitsTry s (k + 1)) <|> nameDigitsBk s k

/-- Name/digits tail starting from the maximal name run. -/
def nameDigits (s : List Char) : Option (String × String) :=
  nameDigitsBk s (s.takeWhile isWordFaC).length

/-- Add-card regex at a fixed position:
`(?:add\s+card|کارت\s+جدید)\s*(?:bank\s+)?([\w؀-ۿ]+)?\s*(\d{12,16})`;
the optional `bank\s+` branch is tried first, falling back to the
branch without it. -/
def addCardAt (s : List Char) : Option (String × String) :=
  ((litSeq2 "add" "card" s) <|> (litSeq2 "کارت" "جدید" s)).bind fun r =>
    let r1 := r.dropWhile isSpaceC
    (match matchLit "bank".data r1 with
     | some r2 => (matchSpaces1 r2).bind nameDigits
     | none => none) <|> nameDigits r1

/-- Leftmost search for the add-card regex. -/
def addCardSearch : List Char → Option (String × String)
  | [] => none
  | s@(_ :: rest) =>
    match addCardAt s with
    | some p => some p
    | none => addCardSearch rest

/-- Delete-card regex at a fixed position:
`(?:remove|delete|حذف)\s+کارت\s*(\d{4})`. -/
def delCardAt (s : List Char) : Option String :=
  ((matchLit "remove".data s) <|> (matchLit "delete".data s) <|> (matchLit "حذف".data s)).bind
    fun r1 =>
      (matchSpaces1 r1).bind fun r2 =>
        (matchLit "کارت".data r2).bind fun r3 =>
          (firstKDigits 4 (r3.dropWhile isSpaceC)).map fun p => String.mk p.1

/-- Leftmost search for the delete-card regex. -/
def delCardSearch : List Char → Option String
  | [] => none
  | s@(_ :: rest) =>
    match delCardAt s with
    | some p => some p
    | none => delCardSearch rest

/-- The category-type alternatives `(income|expense|درآمد|هزینه)` at a fixed
position, in pattern order. -/
def catTypeAt (s : List Char) : Option String :=
  if startsWithL s "income".data then some "income"
  else if startsWithL s "expense".data then some "expense"
  else if startsWithL s "درآمد".data then some "درآمد"
  else if startsWithL s "هزینه".data then some "هزینه"
  else none

/-- The `\s+([\w؀-ۿ]+)\s+(type)` tail shared by the category regexes (the
name run is maximal; its class is disjoint from whitespace, so no
backtracking arises). -/
def catNameTypeTail (r : List Char) : Option (String × String) :=
  (matchSpaces1 r).bind fun r2 =>
    match r2.takeWhile isWordFaC with
    | [] => none
    | nm =>
      (matchSpaces1 (r2.dropWhile isWordFaC)).bind fun r3 =>
        (catTypeAt r3).map fun ty => (String.mk nm, ty)

/-- Add-category regex at a fixed position:
`(?:add\s+category|افزودن\s+دسته)\s+([\w؀-ۿ]+)\s+(income|expense|درآمد|هزینه)`. -/
def addCatAt (s : List Char) : Option (String × String) :=
  ((litSeq2 "add" "category" s) <|> (litSeq2 "افزودن" "دسته" s)).bind catNameTypeTail

/-- Leftmost search for the add-category regex. -/
def addCatSearch : List Char → Option (String × String)
  | [] => none
  | s@(_ :: rest) =>
    match addCatAt s with
    | some p => some p
    | none => addCatSearch rest

/-- Delete-category regex at a fixed position:
`(?:remove|delete|حذف)\s+(?:category|دسته)\s+([\w؀-ۿ]+)\s+(…types…)`. -/
def delCatAt (s : List Char) : Option (String × String) :=
  ((matchLit "remove".data s) <|> (matchLit "delete".data s) <|> (matchLit "حذف".data s)).bind
    fun r1 =>
      (matchSpaces1 r1).bind fun r2 =>
        ((matchLit "category".data r2) <|> (matchLit "دسته".data r2)).bind catNameTypeTail

/-- Leftmost search for the delete-category regex. -/
def delCatSearch : List Char → Option (String × String)
  | [] => none
  | s@(_ :: rest) =>
    match delCatAt s with
    | some p => some p
    | none => delCatSearch rest

/-- The source's mapping of Persian category-type words to the canonical
values (`if ttype in ["درآمد"] … if ttype in ["هزینه"] …`). -/
def normCatType (ty : String) : String :=
  if ty = "درآمد" then "income" else if ty = "هزینه" then "expense" else ty

/-- The `(.+)$` tail (no DOTALL, no MULTILINE): one or more non-newline
characters, greedy, followed by end of text or a single trailing newline. -/
def dotPlusEnd (r : List Char) : Option (List Char) :=
  let g := r.takeWhile (fun c => c ≠ '\n')
  let rest := r.drop g.length
  if g ≠ [] ∧ (rest = [] ∨ rest = ['\n']) then some g else none

/-- Mark-done regex at a fixed position: `(?:تمام\s+شد|done)\s+(.+)$`. -/
def doneAt (s : List Char) : Option (List Char) :=
  ((litSeq2 "تمام" "شد" s) <|> (matchLit "done".data s)).bind fun r =>
    (matchSpaces1 r).bind dotPlusEnd

/-- Leftmost search for the mark-done regex. -/
def doneSearch : List Char → Option (List Char)
  | [] => none
  | s@(_ :: rest) =>
    match doneAt s with
    | some p => some p
    | none => doneSearch rest

/-- Delete-plan regex at a fixed position:
`(?:delete\s+plan|حذف\s+برنامه)\s+(.+)$`. -/
def delPlanAt (s : List Char) : Option (List Char) :=
  ((litSeq2 "delete" "plan" s) <|> (litSeq2 "حذف" "برنامه" s)).bind fun r =>
    (matchSpaces1 r).bind dotPlusEnd

/-- Leftmost search for the delete-plan regex. -/
def delPlanSearch : List Char → Option (List Char)
  | [] => none
  | s@(_ :: rest) =>
    match delPlanAt s with
    | some p => some p
    | none => delPlanSearch rest

/-- Stages of `_local_parse` after transaction detection, in source order:
reports, card/source management, category management, clear-financial,
planning, settings, admin, and the fallback action. -/
def laterStages (text : String) (t tNorm textNorm : List Char) (currentDate : String) :
    ParseResult :=
  match rngSearch tNorm with
  | some p =>
    { sect := some "finance", action := "report_range",
      start_date := some (String.mk p.1), end_date := some (String.mk p.2) }
  | none =>
  if anyKw t ["monthly report", "report this month", "گزارش ماهانه", "گزارش این ماه"] then
    { sect := some "finance", action := "monthly_report" }
  else match addCardSearch textNorm with
  | some p =>
    { sect := some "finance", action := "add_card_source",
      name := some p.1, card_number := some p.2 }
  | none =>
  match delCardSearch tNorm with
  | some h => { sect := some "finance", action := "delete_card_source", card_hint := some h }
  | none =>
  if anyKw t ["cards", "manage cards", "کارت‌ها", "مدیریت کارت"] then
    { sect := some "finance", action := "manage_cards_sources" }
  else match addCatSearch tNorm with
  | some p =>
    { sect := some "finance", action := "add_category",
      name := some p.1, type := some (normCatType p.2) }
  | none =>
  match delCatSearch tNorm with
  | some p =>
    { sect := some "finance", action := "delete_category",
      name := some p.1, type := some (normCatType p.2) }
  | none =>
  if anyKw t ["categories", "دسته‌بندی‌ها", "مدیریت دسته"] then
    { sect := some "finance", action := "categories" }
  else if anyKw t ["clear financial", "پاکسازی مالی"] then
    { sect := some "settings", action := "clear_data", data_type := some "financial" }
  else if anyKw t ["plans today", "today" ++ String.mk [aposC] ++ "s plans", "برنامه‌های امروز"] then
    { sect := some "planning", action := "plans_today" }
  else if anyKw t ["plans week", "week" ++ String.mk [aposC] ++ "s plans", "برنامه‌های هفته", "this week plans"] then
    { sect := some "planning", action := "plans_week" }
  else match doneSearch textNorm with
  | some g =>
    { sect := some "planning", action := "mark_done", title := some (String.mk (stripL g)) }
  | none =>
  match delPlanSearch textNorm with
  | some g =>
    { sect := some "planning", action := "delete_plan", title := some (String.mk (stripL g)) }
  | none =>
  if anyKw t ["clear planning", "پاکسازی برنامه"] then
    { sect := some "settings", action := "clear_data", data_type := some "planning" }
  else if anyKw t ["meeting", "task", "plan", "جلسه", "برنامه", "کار"] then
    { sect := some "planning", action := "add_plan",
      title := some (String.mk (stripL text.data)), date := some currentDate,
      time := (timeSearchNB tNorm).map String.mk }
  else if anyKw t ["change language", "تغییر زبان"] then
    (if anyKw t ["english", "انگلیسی"] then
      { sect := some "settings", action := "change_language", language := some "en" }
    else if anyKw t ["persian", "فارسی", "farsi"] then
      { sect := some "settings", action := "change_language", language := some "fa" }
    else { sect := some "settings", action := "change_language" })
  else if anyKw t ["currency", "واحد پول", "تومان", "دلار"] then
    (if anyKw t ["toman", "تومان"] then
      { sect := some "settings", action := "set_currency", currency := some "toman" }
    else if anyKw t ["dollar", "دلار"] then
      { sect := some "settings", action := "set_currency", currency := some "dollar" }
    else { sect := some "settings", action := "set_currency" })
  else if anyKw t ["calendar", "تقویم", "جلالی", "میلادی"] then
    (if anyKw t ["jalali", "جلالی"] then
      { sect := some "settings", action := "set_calendar", calendar_format := some "jalali" }
    else if anyKw t ["gregorian", "میلادی"] then
      { sect := some "settings", action := "set_calendar", calendar_format := some "gregorian" }
    else { sect := some "settings", action := "set_calendar" })
  else if anyKw t ["clear all", "clear data", "پاکسازی همه", "پاکسازی داده"] then
    { sect := some "settings", action := "clear_data", data_type := some "all" }
  else if anyKw t ["users", "user list", "لیست کاربران"] then
    { sect := some "admin", action := "users" }
  else if anyKw t ["stats", "statistics", "آمار"] then
    { sect := some "admin", action := "stats" }
  else { action := "fallback_to_buttons" }

/-- The lower-cased stripped text `t` of `_local_parse`. -/
def tOf (text : String) : List Char := (stripL text.data).map pyLowerChar

/-- The digit-normalized lower-cased text `t_norm`. -/
def tNormOf (text : String) : List Char := (tOf text).map faToEnChar

/-- The digit-normalized original-case text `text_norm`. -/
def textNormOf (text : String) : List Char := text.data.map faToEnChar

/-- The parsed transaction amount (`float` of the comma/space-stripped
first capture group of the amount regex, over `t_norm`). -/
def localAmount (text : String) : Option ℚ :=
  (amountSearch (tNormOf text)).bind fun p => amountValOf p.1

/-- The normalized currency from group 2 of the amount regex. -/
def localCurrency (text : String) : Option String :=
  (amountSearch (tNormOf text)).bind fun p => currencyOf p.2

/-- The guard of the transaction branch: `if t_type or amount:`. -/
def txnDetected (text : String) : Bool :=
  (detectType (tOf text)).isSome || (localAmount text).isSome

/-- The transaction dictionary built by `_local_parse` when the guard
holds: `amount` defaults to `0`, `type` defaults to `"expense"`, `date`
defaults to the caller-supplied current date, and the optional keys are
added only when truthy (`balance` whenever it is not `None`). -/
def txnResult (text : String) (currentDate : String) : ParseResult :=
  { sect := some "finance", action := "add_transaction",
    amount := some ((localAmount text).getD 0),
    type := some ((detectType (tOf text)).getD "expense"),
    date := some (match dateSearch (tNormOf text) with
      | some d => String.mk d
      | none => currentDate),
    currency := pyStrOptTruthy (localCurrency text),
    card_hint := pyStrOptTruthy ((last4Search (tNormOf text)).map String.mk),
    time := pyStrOptTruthy ((timeSearchB (tNormOf text)).map String.mk),
    balance := balanceValOf (tNormOf text),
    party := pyStrOptTruthy (partyOf (textNormOf text)) }

/-- The rule-based fallback extractor `AIParser._local_parse`: navigation
first, then transaction detection, then the remaining stages. -/
def localParse (text : String) (currentDate : String) : ParseResult :=
  match navLookup (tOf text) with
  | some r => r
  | none =>
    if txnDetected text then txnResult text currentDate
    else laterStages text (tOf text) (tNormOf text) (textNormOf text) currentDate

/-! ### Cards, ownership check, and the manual transaction flow (main.py) -/

/-- A row of the `cards_sources` table. -/
structure CardSource where
  id : Nat
  user_id : Nat
  name : String
  card_number : Option String
  balance : ℚ
  deriving DecidableEq, Repr

/-- `Database.get_card_source`: lookup by id only (`WHERE id = ?`), no user
filter. -/
def get_card_source (cards : List CardSource) (cid : Nat) : Option CardSource :=
  cards.find? fun c => c.id == cid

set_option linter.unusedVariables false in
/-- The acceptance check of `process_card_source` (main.py:1134-1136): the
selected id is looked up by `get_card_source` and accepted when a row
exists whose id equals the requested id.  The requesting user's id is a
parameter of the handler but — as in the source — does not enter the
check. -/
def process_card_source (cards : List CardSource) (requesterId : Nat) (cid : Nat) : Bool :=
  match get_card_source cards cid with
  | none => false
  | some cs => cs.id == cid

/-- Replies the amount handler can send. -/
inductive AmountReply
  | invalidAmount
  | noCardGuide
  | selectCardSource
  deriving DecidableEq, Repr

/-- The two FSM states touched by `process_amount`. -/
inductive TxnState
  | waitingForAmount
  | waitingForCardSource
  deriving DecidableEq, Repr

/-- The per-user FSM data accumulated by the transaction flow
(`state.update_data`). -/
structure SessData where
  amount : Option ℚ := none
  currency : Option String := none
  type : Option String := none
  category : Option String := none
  date : Option String := none
  description : Option String := none
  card_source_id : Option Nat := none
  time : Option String := none
  balance : Option ℚ := none
  party : Option String := none
  deriving DecidableEq, Repr

/-- Normalization performed by `process_amount` on the user's answer:
`fa_to_en(text).replace(",", "").replace(" ", "")`. -/
def normalizeAmountInput (input : String) : List Char :=
  (input.data.map faToEnChar).filter fun c => !(c = ',' || c = ' ')

/-- The only facts `process_amount` consumes from `re.findall(r"\d+", s)`:
whether the list is empty, and its first element (the first maximal digit
run). -/
def firstDigitRun (s : List Char) : Option (List Char) :=
  match s.dropWhile (fun c => !c.isDigit) with
  | [] => none
  | c :: r => some (c :: r.takeWhile Char.isDigit)

/-- The `process_amount` handler (main.py:1067-1123): an answer with no
digit run re-prompts and leaves state and data untouched; otherwise the
first run's value is stored (`amount = float(nums[0])`, no positivity
check) and the flow moves on to card selection (or shows the add-card
guide, staying in the amount state, when the user has no cards). -/
def process_amount (userCurrency : String) (cards : List CardSource) (d : SessData)
    (input : String) : TxnState × SessData × AmountReply :=
  match firstDigitRun (normalizeAmountInput input) with
  | none => (.waitingForAmount, d, .invalidAmount)
  | some run =>
    let d1 := { d with amount := some ((natOfDigits run : ℚ)), currency := some userCurrency }
    if cards.isEmpty then (.waitingForAmount, d1, .noCardGuide)
    else (.waitingForCardSource, d1, .selectCardSource)

/-! ### The AI-assisted seeding path of handle_text_ai (main.py:3346-3471) -/

/-- Last four characters of a card number (`c[2][-4:]`). -/
def strLast4 (s : String) : String := String.mk (s.data.drop (s.data.length - 4))

/-- Card resolution from the AI-provided hint: the id of the unique owned
card whose number is non-empty and ends in the hint, else nothing. -/
def seedCardSource (cards : List CardSource) (hint : Option String) : Option Nat :=
  match hint with
  | none => none
  | some h =>
    if h = "" then none
    else
      match cards.filter (fun c =>
        match c.card_number with
        | some n => (n != "") && (strLast4 n == h)
        | none => false) with
      | [m] => some m.id
      | _ => none

/-- The next prompt the assisted flow issues. -/
inductive NextStep
  | askAmount
  | askType
  | askCategory
  | askCardSource
  | askDescription
  | saveNow
  deriving DecidableEq, Repr

/-- The missing-field decision chain of `handle_text_ai`
(`type → category → card → description → save`), with Python truthiness
for category and description (absent or empty asks). -/
def decideNext (d : SessData) : NextStep :=
  if d.type = none then .askType
  else if d.category.getD "" = "" then .askCategory
  else if d.card_source_id = none then .askCardSource
  else if d.description.getD "" = "" then .askDescription
  else .saveNow

/-- The `add_transaction` branch of `handle_text_ai`: a missing or
non-positive parsed amount falls back to `start_add_transaction` (manual
flow from the amount state, nothing seeded — the seeding
`state.update_data` call is only reached afterwards); otherwise the seed
is stored and the first missing field in the fixed order is prompted. -/
def handleAddTransaction (r : ParseResult) (cards : List CardSource) (userCurrency : String)
    (currentDate : String) : NextStep × Option SessData :=
  let currency := pyOrStr r.currency userCurrency
  match r.amount with
  | none => (.askAmount, none)
  | some a =>
    if a ≤ 0 then (.askAmount, none)
    else
      let d : SessData :=
        { amount := some a
          currency := some currency
          type :=
            match r.type with
            | some ty =>
              if ty ∈ (["income", "expense", "transfer"] : List String) then some ty else none
            | none => none
          category := r.category
          date := some (pyOrStr r.date currentDate)
          description := some (r.note.getD "")
          card_source_id := seedCardSource cards r.card_hint
          time := r.time
          balance := r.balance
          party := r.party }
      (decideNext d, some d)

/-! ### Storage model (database.py) -/

/-- A row of the `transactions` table. -/
structure TxRecord where
  user_id : Nat
  amount : ℚ
  currency : String
  type : String
  category : String
  card_source_id : Option Nat
  date : String
  note : Option String
  deriving DecidableEq, Repr

/-- Committed database contents: the transaction rows and the balance of
each card/source id. -/
structure DBState where
  txs : List TxRecord
  bal : Nat → ℚ

/-- A pending write of the open sqlite transaction. -/
inductive DBOp
  | insertTx (r : TxRecord)
  | updBalance (cid : Nat) (amount : ℚ) (ttype : String)
  deriving DecidableEq, Repr

/-- Effect of a write once committed.  `updBalance` is the source's
`SET balance = balance + ? WHERE id = ?` for income and `- ?` otherwise. -/
def applyOp (db : DBState) : DBOp → DBState
  | .insertTx r => { db with txs := db.txs ++ [r] }
  | .updBalance cid amount ttype =>
    { db with
      bal := fun i =>
        if i = cid then
          (if ttype = "income" then db.bal i + amount else db.bal i - amount)
        else db.bal i }

/-- A sqlite connection: committed state plus the writes executed in the
open transaction. -/
structure Conn where
  committed : DBState
  pending : List DBOp

/-- `cursor.execute` of a write: appended to the open transaction only. -/
def execOp (c : Conn) (op : DBOp) : Conn := { c with pending := c.pending ++ [op] }

/-- `conn.commit()`: pending writes become durable. -/
def commitConn (c : Conn) : Conn :=
  { committed := c.pending.foldl applyOp c.committed, pending := [] }

/-- `Database.update_card_balance` (execute the balance update, then
commit); `execOk` models whether the sqlite write raises. -/
def update_card_balance (c : Conn) (cid : Nat) (amount : ℚ) (ttype : String) (execOk : Bool) :
    Except Conn Conn :=
  if execOk then .ok (commitConn (execOp c (.updBalance cid amount ttype))) else .error c

/-- `Database.add_transaction` (database.py:234-247): insert the row, then —
when a card/source is given — run `update_card_balance`, then commit.  A
raising write propagates (`.error` carries the connection as left). -/
def add_transaction (c : Conn) (user : Nat) (amount : ℚ) (currency ttype category : String)
    (card_source_id : Option Nat) (date : String) (note : Option String)
    (insertOk updOk : Bool) : Except Conn Conn :=
  if insertOk then
    let c1 := execOp c (.insertTx ⟨user, amount, currency, ttype, category, card_source_id, date, note⟩)
    match card_source_id with
    | some cid =>
      match update_card_balance c1 cid amount ttype updOk with
      | .ok c2 => .ok (commitConn c2)
      | .error e => .error e
    | none => .ok (commitConn c1)
  else .error c

/-! ### Credential pool and retry logic (ai_parser.py AIParser) -/

/-- Outcome of one remote request issued with a given key index. -/
inductive RemoteOutcome
  | ok
  | jsonErr
  | quotaErr
  | otherErr
  deriving DecidableEq, Repr

/-- Environment of the parser: the configured key list (by count), library
availability, and — per key index — whether client creation succeeds and
what a request with that key returns. -/
structure PoolConfig where
  numKeys : Nat
  genai : Bool
  createOk : Nat → Bool
  outcome : Nat → RemoteOutcome

/-- Mutable state of the `AIParser` instance: `current_api_key_index`,
`failed_keys`, and the cached client (identified by the key index it was
created with). -/
structure PState where
  currentIndex : Nat
  failedKeys : List Nat
  client : Option Nat
  deriving DecidableEq, Repr

/-- `set.add` on the failed-key set. -/
def addKey (k : Nat) (l : List Nat) : List Nat := if k ∈ l then l else k :: l

/-- The loop body of `_create_client_with_failover`: for each remaining
attempt, the candidate is `(current + attempt) % numKeys`; failed keys are
skipped, a failing creation marks the key failed, and a successful
creation sets the current index.  Also returns the list of indices for
which a client creation was attempted. -/
def createClientLoop (cfg : PoolConfig) (s : PState) (attempt : Nat) :
    Nat → Option Nat × PState × List Nat
  | 0 => (none, s, [])
  | r + 1 =>
    let idx := (s.currentIndex + attempt) % cfg.numKeys
    if idx ∈ s.failedKeys then createClientLoop cfg s (attempt + 1) r
    else if cfg.createOk idx then (some idx, { s with currentIndex := idx }, [idx])
    else
      let res := createClientLoop cfg { s with failedKeys := addKey idx s.failedKeys } (attempt + 1) r
      (res.1, res.2.1, idx :: res.2.2)

/-- `AIParser._create_client_with_failover` (returns `None` when the library
or key list is missing). -/
def create_client_with_failover (cfg : PoolConfig) (s : PState) :
    Option Nat × PState × List Nat :=
  if cfg.genai ∧ 0 < cfg.numKeys then createClientLoop cfg s 0 cfg.numKeys
  else (none, s, [])

/-- The scan of `_switch_to_next_api_key` for the next non-failed index:
candidates are `(current + attempt + 1) % numKeys`.  When one is found,
the current index moves there and the client is recreated through the
failover routine; when none is found the function returns `False`
WITHOUT touching the cached client. -/
def switchLoop (cfg : PoolConfig) (s : PState) (attempt : Nat) :
    Nat → Bool × PState × List Nat
  | 0 => (false, s, [])
  | r + 1 =>
    let next := (s.currentIndex + attempt + 1) % cfg.numKeys
    if next ∈ s.failedKeys then switchLoop cfg s (attempt + 1) r
    else
      let res := create_client_with_failover cfg { s with currentIndex := next }
      (res.1.isSome, { res.2.1 with client := res.1 }, res.2.2)

/-- `AIParser._switch_to_next_api_key`: mark the current key failed, then
scan. -/
def switch_to_next_api_key (cfg : PoolConfig) (s : PState) : Bool × PState × List Nat :=
  switchLoop cfg { s with failedKeys := addKey s.currentIndex s.failedKeys } 0 cfg.numKeys

/-- What `parse_message` returns: a remote reply obtained with some key, or
the rule-based fallback parse. -/
inductive PSource
  | remote (k : Nat)
  | fallback
  deriving DecidableEq, Repr

/-- One pass of `AIParser.parse_message` (ai_parser.py:182-229), with the
network abstracted by `cfg.outcome` and the recursive self-call abstracted
as `retry`: lazily create the client; no client means local fallback; a
JSON error or other error falls back immediately; a quota/rate-limit
error marks the key failed and rotates, then retries the same request
(`retry`) when rotation succeeded, else falls back.  The third component
lists the key indices with which a remote request was attempted. -/
def ensureClient (cfg : PoolConfig) (s : PState) : PState :=
  if s.client = none ∧ cfg.genai ∧ 0 < cfg.numKeys then
    { (create_client_with_failover cfg s).2.1 with client := (create_client_with_failover cfg s).1 }
  else s

/-- The request/dispatch part of one `parse_message` pass, after the lazy
client creation. -/
def parseRequest (cfg : PoolConfig) (retry : PState → PSource × PState × List Nat)
    (s1 : PState) : PSource × PState × List Nat :=
  match s1.client with
  | none => (.fallback, s1, [])
  | some k =>
    match cfg.outcome k with
    | .ok => (.remote k, s1, [k])
    | .jsonErr => (.fallback, s1, [k])
    | .otherErr => (.fallback, s1, [k])
    | .quotaErr =>
      let sw := switch_to_next_api_key cfg s1
      if sw.1 then
        let r := retry sw.2.1
        (r.1, r.2.1, k :: r.2.2)
      else (.fallback, sw.2.1, [k])

def parseStep (cfg : PoolConfig) (retry : PState → PSource × PState × List Nat)
    (s : PState) : PSource × PState × List Nat :=
  parseRequest cfg retry (ensureClient cfg s)

/-- `parse_message` as fuel-bounded iteration of `parseStep` (the source
recurses unboundedly; each successful rotation shrinks the set of usable
keys, so any fuel of at least `numKeys` is exact). -/
def parseMessageAux (cfg : PoolConfig) : Nat → PState → PSource × PState × List Nat
  | 0, s => parseStep cfg (fun s' => (.fallback, s', [])) s
  | fuel + 1, s => parseStep cfg (parseMessageAux cfg fuel) s

/-- `parse_message` with enough fuel for every rotation the failed-set
allows. -/
def parse_message (cfg : PoolConfig) (s : PState) : PSource × PState × List Nat :=
  parseMessageAux cfg (cfg.numKeys + 1) s

/-- Well-formedness of a parser state: a cached client was created with the
current index, which is a real key index. -/
def PStateWF (cfg : PoolConfig) (s : PState) : Prop :=
  ∀ k, s.client = some k → s.currentIndex = k ∧ k < cfg.numKeys

/-- Trace specification of a retry continuation on well-formed states whose
cached client key is not failed: the attempted keys are distinct real key
indices outside the failed set. -/
def RetryTraceSpec (cfg : PoolConfig) (retry : PState → PSource × PState × List Nat) : Prop :=
  ∀ s, PStateWF cfg s → (∀ k, s.client = some k → k ∉ s.failedKeys) →
    (retry s).2.2.Nodup ∧ ∀ i ∈ (retry s).2.2, i < cfg.numKeys ∧ i ∉ s.failedKeys

/-! ### Claim-reading of the card-hint rule (for C10) -/

/-- Reading of C10's description of the card hint: the first four
consecutive digits that are followed by a NON-DIGIT or the end of the
text.  (The source instead requires a regex word boundary: a non-word
character or the end.) -/
def claimFirstFourDigitRun : List Char → Option (List Char)
  | [] => none
  | s@(_ :: rest) =>
    match s with
    | a :: b :: c :: d :: r =>
      if a.isDigit && b.isDigit && c.isDigit && d.isDigit &&
         (match r with | [] => true | e :: _ => !e.isDigit) then
        some [a, b, c, d]
      else claimFirstFourDigitRun rest
    | _ => none

/-- Four digits at offset `i` of `s` followed by a word boundary — the
declarative reading of the source's card-hint regex, used to characterize
the scanner. -/
def boundary4AtB (s : List Char) (i : Nat) : Bool :=
  match s.drop i with
  | a :: b :: c :: d :: r =>
    a.isDigit && b.isDigit && c.isDigit && d.isDigit &&
    (match r with | [] => true | e :: _ => !isWordC e)
  | _ => false

/-! ### Concrete fixtures used by the witnesses and counterexamples -/

/-- Three credentials, all usable for creation, every request quota-limited. -/
def cfgAllQuota3 : PoolConfig :=
  { numKeys := 3, genai := true, createOk := fun _ => true, outcome := fun _ => .quotaErr }

/-- One credential, usable for creation, every request quota-limited. -/
def cfgQuota1 : PoolConfig :=
  { numKeys := 1, genai := true, createOk := fun _ => true, outcome := fun _ => .quotaErr }

/-- The initial parser state (`__init__`). -/
def pInit : PState := { currentIndex := 0, failedKeys := [], client := none }

/-- A card table holding one card owned by user 7. -/
def cardsUser7 : List CardSource :=
  [{ id := 1, user_id := 7, name := "melli", card_number := some "6037991234567890", balance := 0 }]

/-- A fresh connection whose committed state is empty. -/
def conn0 : Conn := { committed := { txs := [], bal := fun _ => 0 }, pending := [] }

/-- A seed with amount and type but neither category nor account (C5). -/
def seedC5 : ParseResult :=
  { sect := some "finance", action := "add_transaction", amount := some 200, type := some "expense" }

/-- A seed with a zero amount but every other slot filled (C6). -/
def seedC6 : ParseResult :=
  { sect := some "finance", action := "add_transaction", amount := some 0,
    type := some "income", category := some "food", date := some "2025-01-01",
    note := some "salary", card_hint := some "7890" }

/-- A pool where key 0 fails creation and key 1 is already marked failed
(round-robin witness fixture). -/
def cfgW7 : PoolConfig :=
  { numKeys := 3, genai := true, createOk := fun i => i != 0, outcome := fun _ => .ok }

/-- A state with key 1 already failed (round-robin witness fixture). -/
def sW7 : PState := { currentIndex := 0, failedKeys := [1], client := none }

/-! ## Theorems -/

/-- C1: committing a completed slot-filling session through
`Database.add_transaction` with a selected card inserts exactly one
transaction row and applies exactly one balance change of the same amount
to that card (added for income, subtracted otherwise), leaving every
other card's balance unchanged; and if either write raises, the committed
state is unchanged — no partial effect. -/
theorem C1_atomic_commit (c : Conn) (hp : c.pending = []) (user : Nat) (amount : ℚ)
    (currency ttype category : String) (cid : Nat) (date : String) (note : Option String) :
    (∀ c', add_transaction c user amount currency ttype category (some cid) date note true true =
        .ok c' →
      c'.committed.txs =
        c.committed.txs ++ [⟨user, amount, currency, ttype, category, some cid, date, note⟩] ∧
      c'.committed.bal cid =
        (if ttype = "income" then c.committed.bal cid + amount else c.committed.bal cid - amount) ∧
      (∀ j, j ≠ cid → c'.committed.bal j = c.committed.bal j) ∧
      c'.pending = []) ∧
    (∀ insertOk updOk e,
      add_transaction c user amount currency ttype category (some cid) date note insertOk updOk =
        .error e →
      e.committed.txs = c.committed.txs ∧ ∀ j, e.committed.bal j = c.committed.bal j) := by
  constructor
  · intro c' h
    simp only [add_transaction, update_card_balance, if_true, execOp, commitConn, hp,
      List.nil_append, List.foldl, applyOp, Except.ok.injEq] at h
    subst h
    refine ⟨rfl, ?_, ?_, rfl⟩
    · simp [applyOp]
    · intro j hj
      simp [applyOp, hj]
  · intro insertOk updOk e h
    cases insertOk with
    | false =>
      simp only [add_transaction, Bool.false_eq_true, if_false, Except.error.injEq] at h
      subst h
      exact ⟨rfl, fun j => rfl⟩
    | true =>
      cases updOk with
      | false =>
        simp only [add_transaction, update_card_balance, if_true, Bool.false_eq_true, if_false,
          execOp, Except.error.injEq] at h
        subst h
        exact ⟨rfl, fun j => rfl⟩
      | true =>
        simp only [add_transaction, update_card_balance, if_true] at h
        exact Except.noConfusion h

/-- C1 witness: the theorem applied to a fresh empty connection and a
concrete income transaction on card 1. -/
theorem C1_atomic_commit_witness :
    conn0.pending = [] ∧
    ((∀ c', add_transaction conn0 7 500 "toman" "income" "salary" (some 1) "2025-01-01" none
        true true = .ok c' →
      c'.committed.txs =
        conn0.committed.txs ++ [⟨7, 500, "toman", "income", "salary", some 1, "2025-01-01", none⟩] ∧
      c'.committed.bal 1 =
        (if "income" = "income" then conn0.committed.bal 1 + 500 else conn0.committed.bal 1 - 500) ∧
      (∀ j, j ≠ 1 → c'.committed.bal j = conn0.committed.bal j) ∧
      c'.pending = []) ∧
    (∀ insertOk updOk e,
      add_transaction conn0 7 500 "toman" "income" "salary" (some 1) "2025-01-01" none
        insertOk updOk = .error e →
      e.committed.txs = conn0.committed.txs ∧ ∀ j, e.committed.bal j = conn0.committed.bal j)) :=
  ⟨rfl, C1_atomic_commit conn0 rfl 7 500 "toman" "income" "salary" 1 "2025-01-01" none⟩

/-- C2: the card/source selection step accepts any EXISTING card id — the
lookup `get_card_source` filters by id only and the subsequent check
compares the row's id with the requested id, so the requesting user's
identity never enters the check: user 42 selecting card 1, which belongs
to user 7, is accepted.  (The source's own comments, "Verify card/source
belongs to user", state the intended ownership check.) -/
theorem C2_no_ownership_check :
    process_card_source cardsUser7 42 1 = true ∧
    (get_card_source cardsUser7 1).map CardSource.user_id = some 7 ∧
    (7 : Nat) ≠ 42 := by
  refine ⟨rfl, rfl, ?_⟩
  decide

/-- C5: a seed with a positive amount and a valid type but no category (and
no resolvable account) makes the assisted flow prompt for the category
next — the seeded amount and type are kept in the session data and are
not re-asked. -/
theorem C5_seed_prompts_category (r : ParseResult) (cards : List CardSource)
    (cur cd : String) (a : ℚ)
    (hamt : r.amount = some a) (hpos : 0 < a)
    (hty : r.type = some "income" ∨ r.type = some "expense")
    (hcat : r.category = none)
    (hcard : seedCardSource cards r.card_hint = none) :
    (handleAddTransaction r cards cur cd).1 = .askCategory ∧
    ∃ d, (handleAddTransaction r cards cur cd).2 = some d ∧
      d.amount = some a ∧ d.type = r.type := by
  have hneg : ¬ a ≤ 0 := not_le.mpr hpos
  rcases hty with h | h <;>
    simp [handleAddTransaction, decideNext, hamt, hneg, h, hcat, hcard]

/-- C5 witness: the seed with `amount = 200`, `type = expense`, no category
and no card hint, against an empty card table. -/
theorem C5_seed_prompts_category_witness :
    seedC5.amount = some 200 ∧ (0 : ℚ) < 200 ∧
    (seedC5.type = some "income" ∨ seedC5.type = some "expense") ∧
    seedC5.category = none ∧ seedCardSource [] seedC5.card_hint = none ∧
    ((handleAddTransaction seedC5 [] "toman" "2025-01-01").1 = .askCategory ∧
      ∃ d, (handleAddTransaction seedC5 [] "toman" "2025-01-01").2 = some d ∧
        d.amount = some 200 ∧ d.type = seedC5.type) :=
  ⟨rfl, by norm_num, Or.inr rfl, rfl, rfl,
    C5_seed_prompts_category seedC5 [] "toman" "2025-01-01" 200 rfl (by norm_num)
      (Or.inr rfl) rfl rfl⟩

/-- C6: a seed whose amount is missing or non-positive makes the assisted
flow fall back to the manual flow's amount state with nothing seeded,
regardless of the other fields of the seed. -/
theorem C6_restart_from_amount (r : ParseResult) (cards : List CardSource) (cur cd : String)
    (h : r.amount = none ∨ ∃ a, r.amount = some a ∧ a ≤ 0) :
    handleAddTransaction r cards cur cd = (.askAmount, none) := by
  rcases h with h | ⟨a, ha, hle⟩
  · simp [handleAddTransaction, h]
  · simp [handleAddTransaction, ha, hle]

/-- C6 witness: a zero-amount seed carrying type, category, date, note and
card hint still restarts from the amount state with nothing seeded. -/
theorem C6_restart_from_amount_witness :
    (seedC6.amount = none ∨ ∃ a, seedC6.amount = some a ∧ a ≤ 0) ∧
    handleAddTransaction seedC6 cardsUser7 "toman" "2025-01-01" = (.askAmount, none) :=
  ⟨Or.inr ⟨0, rfl, le_refl 0⟩,
    C6_restart_from_amount seedC6 cardsUser7 "toman" "2025-01-01" (Or.inr ⟨0, rfl, le_refl 0⟩)⟩

/-- C8 counterexample: the manual flow's amount handler accepts the answer
`"0"` — it stores amount `0` and advances to card selection — although
`0` is not positive, refuting the claim that an answer must parse to a
positive number (and that `"0"` is rejected). -/
theorem C8_counterexample_zero_accepted :
    process_amount "toman" cardsUser7 {} "0" =
      (.waitingForCardSource, { amount := some 0, currency := some "toman" },
        .selectCardSource) ∧
    ¬ (0 : ℚ) > 0 := by
  refine ⟨rfl, ?_⟩
  norm_num

/-- Helper: `firstDigitRun` finds nothing exactly when the text has no
digit. -/
theorem firstDigitRun_none_iff (s : List Char) :
    firstDigitRun s = none ↔ ∀ ch ∈ s, ch.isDigit = false := by
  induction s with
  | nil => simp [firstDigitRun]
  | cons c r ih =>
    by_cases hc : c.isDigit = true
    · simp [firstDigitRun, List.dropWhile_cons, hc]
    · have hc' : c.isDigit = false := by simpa using hc
      have heq : firstDigitRun (c :: r) = firstDigitRun r := by
        simp [firstDigitRun, List.dropWhile_cons, hc']
      rw [heq, ih]
      simp [hc']

/-- C8 (amended): the amount answer is accepted iff it contains at least
one digit after locale-digit normalization — positivity is NOT enforced —
and the accepted amount is the value of the first digit run; an answer
with no digit re-prompts the same amount state with an error message,
leaving the session data untouched (neither advanced nor destroyed). -/
theorem C8_first_digit_run (cur : String) (cards : List CardSource) (d : SessData)
    (input : String) :
    ((process_amount cur cards d input).2.2 = .invalidAmount ↔
      ∀ ch ∈ normalizeAmountInput input, ch.isDigit = false) ∧
    ((process_amount cur cards d input).2.2 = .invalidAmount →
      process_amount cur cards d input = (.waitingForAmount, d, .invalidAmount)) ∧
    (∀ run, firstDigitRun (normalizeAmountInput input) = some run →
      (process_amount cur cards d input).2.1.amount = some ((natOfDigits run : ℚ))) := by
  rcases hfd : firstDigitRun (normalizeAmountInput input) with _ | run
  · refine ⟨?_, ?_, ?_⟩
    · rw [← firstDigitRun_none_iff]
      simp [process_amount, hfd]
    · intro _
      simp [process_amount, hfd]
    · intro run hrun
      exact Option.noConfusion hrun
  · refine ⟨?_, ?_, ?_⟩
    · rw [← firstDigitRun_none_iff, hfd]
      constructor
      · intro hbad
        cases hc : cards.isEmpty <;> simp [process_amount, hfd, hc] at hbad
      · intro hnone
        cases hnone
    · intro hbad
      cases hc : cards.isEmpty <;> simp [process_amount, hfd, hc] at hbad
    · intro run' hrun'
      injection hrun' with h
      subst h
      cases hc : cards.isEmpty <;> simp [process_amount, hfd, hc]

/-- C8 witness: the amended theorem applied to the answer `"0"` — the
first digit run is `"0"`, so amount `0` is stored. -/
theorem C8_first_digit_run_witness :
    firstDigitRun (normalizeAmountInput "0") = some ['0'] ∧
    (process_amount "toman" cardsUser7 {} "0").2.1.amount = some ((natOfDigits ['0'] : ℚ)) :=
  ⟨rfl, (C8_first_digit_run "toman" cardsUser7 {} "0").2.2 ['0'] rfl⟩

/-! ### Credential-pool helper lemmas -/

theorem mem_addKey {k x : Nat} {l : List Nat} : x ∈ addKey k l ↔ x = k ∨ x ∈ l := by
  unfold addKey
  split_ifs with h
  · constructor
    · exact fun hx => Or.inr hx
    · rintro (rfl | hx)
      · exact h
      · exact hx
  · simp [List.mem_cons]

theorem addKey_sub (k : Nat) (l : List Nat) : l ⊆ addKey k l :=
  fun _ hx => mem_addKey.mpr (Or.inr hx)

theorem addKey_self (k : Nat) (l : List Nat) : k ∈ addKey k l :=
  mem_addKey.mpr (Or.inl rfl)

/-- The failover scan only ever grows the failed set. -/
theorem createLoop_mono (cfg : PoolConfig) :
    ∀ r att s, s.failedKeys ⊆ (createClientLoop cfg s att r).2.1.failedKeys := by
  intro r
  induction r with
  | zero => intro att s x hx; exact hx
  | succ r ih =>
    intro att s
    by_cases h1 : (s.currentIndex + att) % cfg.numKeys ∈ s.failedKeys
    · simpa [createClientLoop, h1] using ih (att + 1) s
    · by_cases h2 : cfg.createOk ((s.currentIndex + att) % cfg.numKeys) = true
      · intro x hx
        simpa [createClientLoop, h1, h2] using hx
      · intro x hx
        simp only [createClientLoop, h1, h2]
        simp only [if_neg h1, if_neg h2, ite_false]
        exact ih (att + 1) _ (addKey_sub _ _ hx)

/-- When the failover scan returns a key: that key is not failed (also not
in the final failed set), creation succeeded on it, the current index
moved to it, and the client field is untouched. -/
theorem createLoop_some_spec (cfg : PoolConfig) :
    ∀ r att s idx, (createClientLoop cfg s att r).1 = some idx →
      idx ∉ (createClientLoop cfg s att r).2.1.failedKeys ∧
      (createClientLoop cfg s att r).2.1.currentIndex = idx ∧
      cfg.createOk idx = true ∧
      (0 < cfg.numKeys → idx < cfg.numKeys) ∧
      (createClientLoop cfg s att r).2.1.client = s.client := by
  intro r
  induction r with
  | zero => intro att s idx h; exact Option.noConfusion h
  | succ r ih =>
    intro att s idx h
    by_cases h1 : (s.currentIndex + att) % cfg.numKeys ∈ s.failedKeys
    · simp only [createClientLoop, if_pos h1] at h ⊢
      exact ih (att + 1) s idx h
    · by_cases h2 : cfg.createOk ((s.currentIndex + att) % cfg.numKeys) = true
      · have hres : createClientLoop cfg s att (r + 1) =
            (some ((s.currentIndex + att) % cfg.numKeys),
             { s with currentIndex := (s.currentIndex + att) % cfg.numKeys },
             [(s.currentIndex + att) % cfg.numKeys]) := by
          simp [createClientLoop, h1, h2]
        rw [hres] at h ⊢
        injection h with h
        subst h
        exact ⟨h1, rfl, h2, fun hn => Nat.mod_lt _ hn, rfl⟩
      · simp only [createClientLoop, if_neg h1, if_neg h2, ite_false] at h ⊢
        exact ih (att + 1) _ idx h

/-- Round-robin property of the failover scan: the returned key is the
`j`-th candidate `(current + att + j) % numKeys` for some `j`, and every
earlier candidate was either already failed or failed to create. -/
theorem createLoop_rr (cfg : PoolConfig) :
    ∀ r att s idx, (createClientLoop cfg s att r).1 = some idx →
      ∃ j, j < r ∧ idx = (s.currentIndex + (att + j)) % cfg.numKeys ∧
        ∀ b, b < j → (s.currentIndex + (att + b)) % cfg.numKeys ∈ s.failedKeys ∨
          cfg.createOk ((s.currentIndex + (att + b)) % cfg.numKeys) = false := by
  intro r
  induction r with
  | zero => intro att s idx h; exact Option.noConfusion h
  | succ r ih =>
    intro att s idx h
    by_cases h1 : (s.currentIndex + att) % cfg.numKeys ∈ s.failedKeys
    · simp only [createClientLoop, if_pos h1] at h
      obtain ⟨j, hj, hidx, hskip⟩ := ih (att + 1) s idx h
      refine ⟨j + 1, by omega, ?_, ?_⟩
      · rw [hidx]
        congr 1
        omega
      · intro b hb
        cases b with
        | zero =>
          left
          have : s.currentIndex + (att + 0) = s.currentIndex + att := by omega
          rw [this]
          exact h1
        | succ b =>
          have hsk := hskip b (by omega)
          have harr : s.currentIndex + (att + 1 + b) = s.currentIndex + (att + (b + 1)) := by
            omega
          rw [harr] at hsk
          exact hsk
    · by_cases h2 : cfg.createOk ((s.currentIndex + att) % cfg.numKeys) = true
      · have hres : (createClientLoop cfg s att (r + 1)).1 =
            some ((s.currentIndex + att) % cfg.numKeys) := by
          simp [createClientLoop, h1, h2]
        rw [hres] at h
        injection h with h
        refine ⟨0, by omega, ?_, fun b hb => absurd hb (Nat.not_lt_zero b)⟩
        rw [Nat.add_zero]
        exact h.symm
      · simp only [createClientLoop, if_neg h1, if_neg h2, ite_false] at h
        obtain ⟨j, hj, hidx, hskip⟩ := ih (att + 1) _ idx h
        dsimp only at hidx hskip
        refine ⟨j + 1, by omega, ?_, ?_⟩
        · rw [hidx]
          congr 1
          omega
        · intro b hb
          cases b with
          | zero =>
            right
            have : s.currentIndex + (att + 0) = s.currentIndex + att := by omega
            rw [this]
            simpa using h2
          | succ b =>
            have hsk := hskip b (by omega)
            have harr : s.currentIndex + (att + 1 + b) = s.currentIndex + (att + (b + 1)) := by
              omega
            rw [harr] at hsk
            rcases hsk with hmem | hok
            · rw [mem_addKey] at hmem
              rcases hmem with heq | hmem
              · right
                rw [heq]
                simpa using h2
              · exact Or.inl hmem
            · exact Or.inr hok

/-- Every index for which the failover scan attempts a client creation is
outside the initial failed set. -/
theorem createLoop_trace (cfg : PoolConfig) :
    ∀ r att s, ∀ i ∈ (createClientLoop cfg s att r).2.2, i ∉ s.failedKeys := by
  intro r
  induction r with
  | zero => intro att s i hi; exact absurd hi (List.not_mem_nil i)
  | succ r ih =>
    intro att s i hi
    by_cases h1 : (s.currentIndex + att) % cfg.numKeys ∈ s.failedKeys
    · simp only [createClientLoop, if_pos h1] at hi
      exact ih (att + 1) s i hi
    · by_cases h2 : cfg.createOk ((s.currentIndex + att) % cfg.numKeys) = true
      · simp only [createClientLoop, if_neg h1, if_pos h2, List.mem_singleton] at hi
        exact hi ▸ h1
      · simp only [createClientLoop, if_neg h1, if_neg h2, ite_false, List.mem_cons] at hi
        rcases hi with rfl | hi
        · exact h1
        · intro hmem
          exact ih (att + 1) _ i hi (addKey_sub _ _ hmem)

/-- Wrapper specs for `_create_client_with_failover`. -/
theorem failover_some_spec (cfg : PoolConfig) (s : PState) (idx : Nat)
    (h : (create_client_with_failover cfg s).1 = some idx) :
    idx ∉ (create_client_with_failover cfg s).2.1.failedKeys ∧
    (create_client_with_failover cfg s).2.1.currentIndex = idx ∧
    cfg.createOk idx = true ∧ idx < cfg.numKeys ∧
    (create_client_with_failover cfg s).2.1.client = s.client := by
  unfold create_client_with_failover at h ⊢
  split_ifs at h ⊢ with hg
  obtain ⟨hf, hcur, hok, hlt, hcl⟩ := createLoop_some_spec cfg cfg.numKeys 0 s idx h
  exact ⟨hf, hcur, hok, hlt hg.2, hcl⟩

theorem failover_mono (cfg : PoolConfig) (s : PState) :
    s.failedKeys ⊆ (create_client_with_failover cfg s).2.1.failedKeys := by
  unfold create_client_with_failover
  split_ifs with hg
  · exact createLoop_mono cfg cfg.numKeys 0 s
  · exact fun x hx => hx

theorem failover_trace (cfg : PoolConfig) (s : PState) :
    ∀ i ∈ (create_client_with_failover cfg s).2.2, i ∉ s.failedKeys := by
  unfold create_client_with_failover
  split_ifs with hg
  · exact createLoop_trace cfg cfg.numKeys 0 s
  · intro i hi; exact absurd hi (List.not_mem_nil i)

/-- The rotation scan only grows the failed set. -/
theorem switchLoop_mono (cfg : PoolConfig) :
    ∀ r att s, s.failedKeys ⊆ (switchLoop cfg s att r).2.1.failedKeys := by
  intro r
  induction r with
  | zero => intro att s x hx; exact hx
  | succ r ih =>
    intro att s
    by_cases h1 : (s.currentIndex + att + 1) % cfg.numKeys ∈ s.failedKeys
    · simpa [switchLoop, h1] using ih (att + 1) s
    · intro x hx
      simp only [switchLoop, if_neg h1]
      exact failover_mono cfg { s with currentIndex := (s.currentIndex + att + 1) % cfg.numKeys } hx

/-- A successful rotation installs a fresh client: its key is the new
current index, is a real key index, and is not in the final failed set. -/
theorem switchLoop_true (cfg : PoolConfig) :
    ∀ r att s, (switchLoop cfg s att r).1 = true →
      ∃ c, (switchLoop cfg s att r).2.1.client = some c ∧
        c ∉ (switchLoop cfg s att r).2.1.failedKeys ∧
        (switchLoop cfg s att r).2.1.currentIndex = c ∧ c < cfg.numKeys := by
  intro r
  induction r with
  | zero => intro att s h; exact Bool.noConfusion h
  | succ r ih =>
    intro att s h
    by_cases h1 : (s.currentIndex + att + 1) % cfg.numKeys ∈ s.failedKeys
    · simp only [switchLoop, if_pos h1] at h ⊢
      exact ih (att + 1) s h
    · simp only [switchLoop, if_neg h1] at h ⊢
      rcases hres : (create_client_with_failover cfg
          { s with currentIndex := (s.currentIndex + att + 1) % cfg.numKeys }).1 with _ | c
      · rw [hres] at h
        exact Bool.noConfusion h
      · obtain ⟨hf, hcur, _, hlt, _⟩ := failover_some_spec cfg _ c hres
        exact ⟨c, rfl, hf, hcur, hlt⟩

/-- Every index for which the rotation scan attempts a client creation is
outside the failed set it started from. -/
theorem switchLoop_trace (cfg : PoolConfig) :
    ∀ r att s, ∀ i ∈ (switchLoop cfg s att r).2.2, i ∉ s.failedKeys := by
  intro r
  induction r with
  | zero => intro att s i hi; exact absurd hi (List.not_mem_nil i)
  | succ r ih =>
    intro att s i hi
    by_cases h1 : (s.currentIndex + att + 1) % cfg.numKeys ∈ s.failedKeys
    · simp only [switchLoop, if_pos h1] at hi
      exact ih (att + 1) s i hi
    · simp only [switchLoop, if_neg h1] at hi
      exact failover_trace cfg
        { s with currentIndex := (s.currentIndex + att + 1) % cfg.numKeys } i hi

/-- `_switch_to_next_api_key` marks the current key failed, and the failed
set only grows. -/
theorem switch_marks_current (cfg : PoolConfig) (s : PState) :
    s.currentIndex ∈ (switch_to_next_api_key cfg s).2.1.failedKeys := by
  unfold switch_to_next_api_key
  exact switchLoop_mono cfg cfg.numKeys 0 _ (addKey_self _ _)

theorem switch_mono (cfg : PoolConfig) (s : PState) :
    s.failedKeys ⊆ (switch_to_next_api_key cfg s).2.1.failedKeys := by
  unfold switch_to_next_api_key
  intro x hx
  exact switchLoop_mono cfg cfg.numKeys 0 _ (addKey_sub _ _ hx)

theorem switch_true (cfg : PoolConfig) (s : PState)
    (h : (switch_to_next_api_key cfg s).1 = true) :
    ∃ c, (switch_to_next_api_key cfg s).2.1.client = some c ∧
      c ∉ (switch_to_next_api_key cfg s).2.1.failedKeys ∧
      (switch_to_next_api_key cfg s).2.1.currentIndex = c ∧ c < cfg.numKeys := by
  unfold switch_to_next_api_key at h ⊢
  exact switchLoop_true cfg cfg.numKeys 0 _ h

theorem switch_trace (cfg : PoolConfig) (s : PState) :
    ∀ i ∈ (switch_to_next_api_key cfg s).2.2, i ≠ s.currentIndex ∧ i ∉ s.failedKeys := by
  unfold switch_to_next_api_key
  intro i hi
  have := switchLoop_trace cfg cfg.numKeys 0 _ i hi
  rw [mem_addKey] at this
  push_neg at this
  exact this

/-- Trace specification of the dispatch part of one `parse_message` pass:
given a client key that is the current index and a real key index, the
attempted keys are distinct real key indices, and each is either not yet
failed or is the (possibly stale) client key itself. -/
theorem parseRequest_trace_spec (cfg : PoolConfig)
    (retry : PState → PSource × PState × List Nat) (s1 : PState) (k : Nat)
    (hck : s1.client = some k) (hcur : s1.currentIndex = k) (hklt : k < cfg.numKeys)
    (hretry : RetryTraceSpec cfg retry) :
    (parseRequest cfg retry s1).2.2.Nodup ∧
    ∀ i ∈ (parseRequest cfg retry s1).2.2,
      i < cfg.numKeys ∧ (i ∉ s1.failedKeys ∨ i = k) := by
  unfold parseRequest
  rw [hck]
  dsimp only
  rcases ho : cfg.outcome k with _ | _ | _ | _ <;> dsimp only
  case ok =>
    exact ⟨List.nodup_singleton k, fun i hi => by
      rw [List.mem_singleton] at hi
      subst hi
      exact ⟨hklt, Or.inr rfl⟩⟩
  case jsonErr =>
    exact ⟨List.nodup_singleton k, fun i hi => by
      rw [List.mem_singleton] at hi
      subst hi
      exact ⟨hklt, Or.inr rfl⟩⟩
  case otherErr =>
    exact ⟨List.nodup_singleton k, fun i hi => by
      rw [List.mem_singleton] at hi
      subst hi
      exact ⟨hklt, Or.inr rfl⟩⟩
  case quotaErr =>
    by_cases hsw : (switch_to_next_api_key cfg s1).1 = true
    · rw [if_pos hsw]
      obtain ⟨c, hc, hcf, hccur, hclt⟩ := switch_true cfg s1 hsw
      have hwf2 : PStateWF cfg (switch_to_next_api_key cfg s1).2.1 := by
        intro k' hk'
        rw [hc] at hk'
        injection hk' with e
        subst e
        exact ⟨hccur, hclt⟩
      have hfresh2 : ∀ k', (switch_to_next_api_key cfg s1).2.1.client = some k' →
          k' ∉ (switch_to_next_api_key cfg s1).2.1.failedKeys := by
        intro k' hk'
        rw [hc] at hk'
        injection hk' with e
        subst e
        exact hcf
      obtain ⟨hnd, hmem⟩ := hretry _ hwf2 hfresh2
      have hkfail : k ∈ (switch_to_next_api_key cfg s1).2.1.failedKeys := by
        rw [← hcur]
        exact switch_marks_current cfg s1
      constructor
      · rw [List.nodup_cons]
        exact ⟨fun hkin => (hmem k hkin).2 hkfail, hnd⟩
      · intro i hi
        rcases List.mem_cons.mp hi with rfl | hi
        · exact ⟨hklt, Or.inr rfl⟩
        · refine ⟨(hmem i hi).1, Or.inl fun hifail => ?_⟩
          exact (hmem i hi).2 (switch_mono cfg s1 hifail)
    · rw [if_neg hsw]
      exact ⟨List.nodup_singleton k, fun i hi => by
        rw [List.mem_singleton] at hi
        subst hi
        exact ⟨hklt, Or.inr rfl⟩⟩

/-- Trace specification of a full `parse_message` pass from a well-formed
state. -/
theorem parseStep_trace_spec (cfg : PoolConfig)
    (retry : PState → PSource × PState × List Nat) (s : PState)
    (hwf : PStateWF cfg s) (hretry : RetryTraceSpec cfg retry) :
    (parseStep cfg retry s).2.2.Nodup ∧
    ∀ i ∈ (parseStep cfg retry s).2.2,
      i < cfg.numKeys ∧ (i ∉ s.failedKeys ∨ s.client = some i) := by
  unfold parseStep ensureClient
  by_cases hcond : s.client = none ∧ cfg.genai ∧ 0 < cfg.numKeys
  · rw [if_pos hcond]
    rcases hc : (create_client_with_failover cfg s).1 with _ | k
    · constructor
      · simp [parseRequest, hc]
      · intro i hi
        simp [parseRequest, hc] at hi
    · obtain ⟨hf, hcur, _, hklt, _⟩ := failover_some_spec cfg s k hc
      have hmono := failover_mono cfg s
      have h1 := parseRequest_trace_spec cfg retry
        { (create_client_with_failover cfg s).2.1 with client := some k } k rfl
        (by simpa using hcur) hklt hretry
      refine ⟨h1.1, fun i hi => ?_⟩
      have h2 := h1.2 i hi
      refine ⟨h2.1, Or.inl fun hmem => ?_⟩
      rcases h2.2 with hnf | rfl
      · exact hnf (hmono hmem)
      · exact hf (hmono hmem)
  · rw [if_neg hcond]
    rcases hc : s.client with _ | k
    · constructor
      · simp [parseRequest, hc]
      · intro i hi
        simp [parseRequest, hc] at hi
    · obtain ⟨hcur, hklt⟩ := hwf k hc
      have h1 := parseRequest_trace_spec cfg retry s k hc hcur hklt hretry
      refine ⟨h1.1, fun i hi => ?_⟩
      rcases (h1.2 i hi).2 with h | rfl
      · exact ⟨(h1.2 i hi).1, Or.inl h⟩
      · exact ⟨(h1.2 i hi).1, Or.inr rfl⟩

/-- The fresh-state variant of `parseStep_trace_spec`. -/
theorem parseStep_fresh_spec (cfg : PoolConfig)
    (retry : PState → PSource × PState × List Nat) (s : PState)
    (hwf : PStateWF cfg s) (hfresh : ∀ k, s.client = some k → k ∉ s.failedKeys)
    (hretry : RetryTraceSpec cfg retry) :
    (parseStep cfg retry s).2.2.Nodup ∧
    ∀ i ∈ (parseStep cfg retry s).2.2, i < cfg.numKeys ∧ i ∉ s.failedKeys := by
  obtain ⟨hnd, hmem⟩ := parseStep_trace_spec cfg retry s hwf hretry
  refine ⟨hnd, fun i hi => ⟨(hmem i hi).1, ?_⟩⟩
  rcases (hmem i hi).2 with h | h
  · exact h
  · exact hfresh i h

/-- Every fuel level of `parse_message` satisfies the fresh-state trace
specification. -/
theorem parseAux_traceSpec (cfg : PoolConfig) :
    ∀ fuel, RetryTraceSpec cfg (parseMessageAux cfg fuel) := by
  intro fuel
  induction fuel with
  | zero =>
    intro s hwf hfresh
    exact parseStep_fresh_spec cfg _ s hwf hfresh
      (fun s' _ _ => ⟨List.nodup_nil, fun i hi => absurd hi (List.not_mem_nil i)⟩)
  | succ fuel ih =>
    intro s hwf hfresh
    exact parseStep_fresh_spec cfg _ s hwf hfresh ih

/-- The dispatch of one pass returns either the fallback parse or a remote
reply obtained with a key whose request succeeded. -/
theorem parseRequest_result_spec (cfg : PoolConfig)
    (retry : PState → PSource × PState × List Nat) (s1 : PState)
    (hretry : ∀ s', (retry s').1 = .fallback ∨
      ∃ k, (retry s').1 = .remote k ∧ cfg.outcome k = .ok) :
    (parseRequest cfg retry s1).1 = .fallback ∨
    ∃ k, (parseRequest cfg retry s1).1 = .remote k ∧ cfg.outcome k = .ok := by
  unfold parseRequest
  rcases hc : s1.client with _ | k
  · dsimp only
    exact Or.inl rfl
  · dsimp only
    rcases ho : cfg.outcome k with _ | _ | _ | _ <;> dsimp only
    case ok => exact Or.inr ⟨k, rfl, ho⟩
    case jsonErr => exact Or.inl rfl
    case otherErr => exact Or.inl rfl
    case quotaErr =>
      by_cases hsw : (switch_to_next_api_key cfg s1).1 = true
      · rw [if_pos hsw]
        rcases hretry (switch_to_next_api_key cfg s1).2.1 with h | ⟨k', h1, h2⟩
        · exact Or.inl h
        · exact Or.inr ⟨k', h1, h2⟩
      · rw [if_neg hsw]
        exact Or.inl rfl

/-- Any fuel level of `parse_message` returns either the fallback parse or
a successful remote reply. -/
theorem parseAux_result (cfg : PoolConfig) :
    ∀ fuel s, (parseMessageAux cfg fuel s).1 = .fallback ∨
      ∃ k, (parseMessageAux cfg fuel s).1 = .remote k ∧ cfg.outcome k = .ok := by
  intro fuel
  induction fuel with
  | zero =>
    intro s
    exact parseRequest_result_spec cfg _ (ensureClient cfg s) (fun s' => Or.inl rfl)
  | succ fuel ih =>
    intro s
    exact parseRequest_result_spec cfg _ (ensureClient cfg s) ih

/-- A duplicate-free list of numbers below `n` has length at most `n`. -/
theorem nodup_lt_length_le (n : Nat) (l : List Nat) (hnd : l.Nodup)
    (hlt : ∀ i ∈ l, i < n) : l.length ≤ n := by
  classical
  have h1 : l.toFinset ⊆ Finset.range n := by
    intro x hx
    rw [List.mem_toFinset] at hx
    exact Finset.mem_range.mpr (hlt x hx)
  have h2 := Finset.card_le_card h1
  rwa [List.toFinset_card_of_nodup hnd, Finset.card_range] at h2

/-- C4 counterexample: with three credentials all quota-limited, one call
issues request attempts with keys 0, 1 AND 2 before falling back — after
the single claimed retry (key 1) failed with a quota error, the client
retried again with key 2 instead of falling back at once. -/
theorem C4_counterexample_second_retry :
    (parse_message cfgAllQuota3 pInit).2.2 = [0, 1, 2] ∧
    (parse_message cfgAllQuota3 pInit).1 = .fallback ∧
    cfgAllQuota3.outcome 1 = .quotaErr :=
  ⟨rfl, rfl, rfl⟩

/-- C4 (amended): on a quota/rate-limit error the client marks the current
credential failed, rotates, and retries the same request — repeatedly,
once per successful rotation, not exactly once.  Every credential is
attempted at most once per call (the attempt list is duplicate-free over
the key indices, hence at most `numKeys` attempts), and the call always
ends in either the rule-based fallback or a successful remote reply. -/
theorem C4_rotating_retry_bounded (cfg : PoolConfig) (s : PState) (hwf : PStateWF cfg s) :
    (parse_message cfg s).2.2.Nodup ∧
    (parse_message cfg s).2.2.length ≤ cfg.numKeys ∧
    ((parse_message cfg s).1 = .fallback ∨
      ∃ k, (parse_message cfg s).1 = .remote k ∧ cfg.outcome k = .ok) := by
  obtain ⟨hnd, hmem⟩ := parseStep_trace_spec cfg (parseMessageAux cfg cfg.numKeys) s hwf
    (parseAux_traceSpec cfg cfg.numKeys)
  exact ⟨hnd, nodup_lt_length_le cfg.numKeys _ hnd (fun i hi => (hmem i hi).1),
    parseAux_result cfg (cfg.numKeys + 1) s⟩

/-- C4 witness: the amended theorem applied to the all-quota three-key
pool from its initial state. -/
theorem C4_rotating_retry_bounded_witness :
    PStateWF cfgAllQuota3 pInit ∧
    ((parse_message cfgAllQuota3 pInit).2.2.Nodup ∧
      (parse_message cfgAllQuota3 pInit).2.2.length ≤ cfgAllQuota3.numKeys ∧
      ((parse_message cfgAllQuota3 pInit).1 = .fallback ∨
        ∃ k, (parse_message cfgAllQuota3 pInit).1 = .remote k ∧
          cfgAllQuota3.outcome k = .ok)) :=
  ⟨fun _ h => Option.noConfusion h,
    C4_rotating_retry_bounded cfgAllQuota3 pInit (fun _ h => Option.noConfusion h)⟩

/-- C7 counterexample: with a single quota-limited credential, the first
call marks key 0 failed but leaves the cached client in place; the next
call still issues a request attempt with key 0 although it is in the
failed set — a failed credential IS reused for request attempts. -/
theorem C7_counterexample_stale_client :
    0 ∈ ((parse_message cfgQuota1 pInit).2.1).failedKeys ∧
    ((parse_message cfgQuota1 pInit).2.1).client = some 0 ∧
    (parse_message cfgQuota1 ((parse_message cfgQuota1 pInit).2.1)).2.2 = [0] := by
  refine ⟨?_, rfl, rfl⟩
  decide

/-- C7 (amended): once a credential index is marked failed it is never used
again for a CLIENT-CREATION attempt, and creation selects keys round-robin
from the current index, skipping entries that are failed (or that fail to
create); rotation likewise only attempts non-failed keys other than the
current one.  (Request attempts, by contrast, may still reuse a failed
key through the stale cached client — see the counterexample.) -/
theorem C7_creation_round_robin (cfg : PoolConfig) (s : PState) :
    (∀ i ∈ (create_client_with_failover cfg s).2.2, i ∉ s.failedKeys) ∧
    (∀ idx, (create_client_with_failover cfg s).1 = some idx →
      idx ∉ s.failedKeys ∧ cfg.createOk idx = true ∧
      ∃ a, a < cfg.numKeys ∧ idx = (s.currentIndex + a) % cfg.numKeys ∧
        ∀ b, b < a → (s.currentIndex + b) % cfg.numKeys ∈ s.failedKeys ∨
          cfg.createOk ((s.currentIndex + b) % cfg.numKeys) = false) ∧
    (∀ i ∈ (switch_to_next_api_key cfg s).2.2, i ≠ s.currentIndex ∧ i ∉ s.failedKeys) := by
  refine ⟨failover_trace cfg s, ?_, switch_trace cfg s⟩
  intro idx h
  unfold create_client_with_failover at h
  by_cases hg : cfg.genai ∧ 0 < cfg.numKeys
  · rw [if_pos hg] at h
    have hspec := createLoop_some_spec cfg cfg.numKeys 0 s idx h
    have hmono := createLoop_mono cfg cfg.numKeys 0 s
    obtain ⟨j, hj, hidx, hskip⟩ := createLoop_rr cfg cfg.numKeys 0 s idx h
    refine ⟨fun hmem => hspec.1 (hmono hmem), hspec.2.2.1, j, hj, ?_, ?_⟩
    · simpa using hidx
    · intro b hb
      simpa using hskip b hb
  · rw [if_neg hg] at h
    exact Option.noConfusion h

/-- C7 witness: in a three-key pool with key 1 already failed and key 0
failing creation, the failover selects key 2 = (current + 2) mod 3, having
skipped key 0 (creation fails) and key 1 (already failed). -/
theorem C7_creation_round_robin_witness :
    (create_client_with_failover cfgW7 sW7).1 = some 2 ∧
    (2 ∉ sW7.failedKeys ∧ cfgW7.createOk 2 = true ∧
      ∃ a, a < cfgW7.numKeys ∧ 2 = (sW7.currentIndex + a) % cfgW7.numKeys ∧
        ∀ b, b < a → (sW7.currentIndex + b) % cfgW7.numKeys ∈ sW7.failedKeys ∨
          cfgW7.createOk ((sW7.currentIndex + b) % cfgW7.numKeys) = false) :=
  ⟨rfl, (C7_creation_round_robin cfgW7 sW7).2.1 2 rfl⟩

/-! ### Fallback-extractor theorems (C3, C9, C10) -/

/-- Helper: past the navigation stage, a detected transaction yields the
transaction dictionary. -/
theorem localParse_txn (text currentDate : String)
    (hnav : navLookup (tOf text) = none) (hbr : txnDetected text = true) :
    localParse text currentDate = txnResult text currentDate := by
  simp [localParse, hnav, hbr]

/-- C3 counterexample: `"deposit payment"` contains both an income keyword
(`deposit`) and an expense keyword (`payment`), yet the fallback extractor
classifies it as INCOME — income, not expense, wins the tie-break, because
the expense assignment keeps an already-set type. -/
theorem C3_counterexample_income_tie :
    anyKw (tOf "deposit payment") incomeWords = true ∧
    anyKw (tOf "deposit payment") expenseWords = true ∧
    navLookup (tOf "deposit payment") = none ∧
    (localParse "deposit payment" "2025-01-01").action = "add_transaction" ∧
    (localParse "deposit payment" "2025-01-01").type = some "income" ∧
    (some "income" : Option String) ≠ some "expense" := by
  refine ⟨rfl, rfl, rfl, rfl, rfl, ?_⟩
  decide

/-- C3 (amended): for every text containing both a recognized income
keyword and a recognized expense keyword (and no navigation keyword, which
would short-circuit), the extracted transaction type is INCOME — income
wins the tie-break. -/
theorem C3_income_wins_tie (text currentDate : String)
    (hnav : navLookup (tOf text) = none)
    (hinc : anyKw (tOf text) incomeWords = true)
    (hexp : anyKw (tOf text) expenseWords = true) :
    (localParse text currentDate).action = "add_transaction" ∧
    (localParse text currentDate).type = some "income" := by
  have hdt : detectType (tOf text) = some "income" := by
    simp [detectType, hinc, hexp]
  have hbr : txnDetected text = true := by
    simp [txnDetected, hdt]
  rw [localParse_txn text currentDate hnav hbr]
  exact ⟨rfl, by simp [txnResult, hdt]⟩

/-- C3 witness: the amended theorem applied to `"deposit payment"`. -/
theorem C3_income_wins_tie_witness :
    navLookup (tOf "deposit payment") = none ∧
    anyKw (tOf "deposit payment") incomeWords = true ∧
    anyKw (tOf "deposit payment") expenseWords = true ∧
    ((localParse "deposit payment" "2025-01-01").action = "add_transaction" ∧
      (localParse "deposit payment" "2025-01-01").type = some "income") :=
  ⟨rfl, rfl, rfl, C3_income_wins_tie "deposit payment" "2025-01-01" rfl rfl rfl⟩

/-- C9 counterexample: `"spent money on stuff"` is classified as a
transaction by its expense keyword alone (no parseable amount), yet the
result REPORTS `amount = 0` instead of omitting the amount; and `"5000"`
has no type keyword, yet the result reports `type = "expense"` instead of
omitting the type. -/
theorem C9_counterexample_zero_and_default :
    detectType (tOf "spent money on stuff") = some "expense" ∧
    localAmount "spent money on stuff" = none ∧
    (localParse "spent money on stuff" "2025-01-01").amount = some 0 ∧
    detectType (tOf "5000") = none ∧
    (localParse "5000" "2025-01-01").type = some "expense" :=
  ⟨rfl, rfl, rfl, rfl, rfl⟩

/-- C9 (amended): the fallback extractor's transaction result ALWAYS
contains the amount and type keys — an unparsed amount is reported as `0`
and a missing type keyword defaults to `"expense"` — while the genuinely
optional keys (currency, card hint) are omitted when absent. -/
theorem C9_amount_type_defaults (text currentDate : String)
    (hnav : navLookup (tOf text) = none) (hbr : txnDetected text = true) :
    ((localParse text currentDate).amount = some ((localAmount text).getD 0) ∧
      (localParse text currentDate).type = some ((detectType (tOf text)).getD "expense")) ∧
    (localAmount text = none → (localParse text currentDate).amount = some 0) ∧
    (detectType (tOf text) = none → (localParse text currentDate).type = some "expense") ∧
    (localCurrency text = none → (localParse text currentDate).currency = none) ∧
    (last4Search (tNormOf text) = none → (localParse text currentDate).card_hint = none) := by
  rw [localParse_txn text currentDate hnav hbr]
  refine ⟨⟨rfl, rfl⟩, ?_, ?_, ?_, ?_⟩
  · intro h
    simp [txnResult, h]
  · intro h
    simp [txnResult, h]
  · intro h
    simp [txnResult, h, pyStrOptTruthy]
  · intro h
    simp [txnResult, h, pyStrOptTruthy]

/-- C9 witness: the amended theorem applied to the keyword-only input
`"spent money on stuff"`. -/
theorem C9_amount_type_defaults_witness :
    navLookup (tOf "spent money on stuff") = none ∧
    txnDetected "spent money on stuff" = true ∧
    (((localParse "spent money on stuff" "2025-01-01").amount =
        some ((localAmount "spent money on stuff").getD 0) ∧
      (localParse "spent money on stuff" "2025-01-01").type =
        some ((detectType (tOf "spent money on stuff")).getD "expense")) ∧
    (localAmount "spent money on stuff" = none →
      (localParse "spent money on stuff" "2025-01-01").amount = some 0) ∧
    (detectType (tOf "spent money on stuff") = none →
      (localParse "spent money on stuff" "2025-01-01").type = some "expense") ∧
    (localCurrency "spent money on stuff" = none →
      (localParse "spent money on stuff" "2025-01-01").currency = none) ∧
    (last4Search (tNormOf "spent money on stuff") = none →
      (localParse "spent money on stuff" "2025-01-01").card_hint = none)) :=
  ⟨rfl, rfl, C9_amount_type_defaults "spent money on stuff" "2025-01-01" rfl rfl⟩

/-! ### Card-hint scanner characterization (C10) -/

theorem boundary4AtB_nil (i : Nat) : boundary4AtB [] i = false := by
  simp [boundary4AtB, List.drop_nil]

theorem boundary4AtB_cons (c : Char) (s : List Char) (i : Nat) :
    boundary4AtB (c :: s) (i + 1) = boundary4AtB s i := rfl

theorem boundary4AtB_short (s : List Char) (hs : s.length < 4) (i : Nat) :
    boundary4AtB s i = false := by
  unfold boundary4AtB
  rcases h : s.drop i with _ | ⟨a, t⟩
  · rfl
  · rcases t with _ | ⟨b, t⟩
    · rfl
    · rcases t with _ | ⟨c', t⟩
      · rfl
      · rcases t with _ | ⟨d, t⟩
        · rfl
        · exfalso
          have hle : (s.drop i).length ≤ s.length := by
            rw [List.length_drop]
            omega
          rw [h] at hle
          simp at hle
          omega

/-- The card-hint scanner finds nothing iff no position carries four digits
followed by a word boundary. -/
theorem last4Search_none_iff :
    ∀ s : List Char, last4Search s = none ↔ ∀ i, boundary4AtB s i = false := by
  intro s
  induction s with
  | nil =>
    constructor
    · intro _ i
      exact boundary4AtB_nil i
    · intro _
      rfl
  | cons a s ih =>
    rcases s with _ | ⟨b, s⟩
    · constructor
      · intro _ i
        exact boundary4AtB_short [a] (by simp) i
      · intro _
        rfl
    · rcases s with _ | ⟨c, s⟩
      · constructor
        · intro _ i
          exact boundary4AtB_short [a, b] (by simp) i
        · intro _
          rfl
      · rcases s with _ | ⟨d, s⟩
        · constructor
          · intro _ i
            exact boundary4AtB_short [a, b, c] (by simp) i
          · intro _
            rfl
        · have h0 : boundary4AtB (a :: b :: c :: d :: s) 0 =
              (a.isDigit && b.isDigit && c.isDigit && d.isDigit && boundaryAfter s) := rfl
          have hunf : last4Search (a :: b :: c :: d :: s) =
              if (a.isDigit && b.isDigit && c.isDigit && d.isDigit && boundaryAfter s) = true
              then some [a, b, c, d]
              else last4Search (b :: c :: d :: s) := rfl
          by_cases hg : (a.isDigit && b.isDigit && c.isDigit && d.isDigit && boundaryAfter s)
            = true
          · have hres : last4Search (a :: b :: c :: d :: s) = some [a, b, c, d] := by
              rw [hunf, if_pos hg]
            rw [hres]
            constructor
            · intro h
              exact Option.noConfusion h
            · intro hall
              rw [hall 0] at h0
              rw [hg] at h0
              exact Bool.noConfusion h0
          · have hres : last4Search (a :: b :: c :: d :: s) =
                last4Search (b :: c :: d :: s) := by
              rw [hunf, if_neg hg]
            rw [hres, ih]
            constructor
            · intro hall i
              cases i with
              | zero =>
                rw [h0]
                simpa using hg
              | succ i =>
                rw [boundary4AtB_cons]
                exact hall i
            · intro hall i
              have := hall (i + 1)
              rwa [boundary4AtB_cons] at this


/-- When the card-hint scanner returns a group, it is the four digits at
the least position carrying four digits followed by a word boundary. -/
theorem last4Search_some_spec :
    ∀ (s : List Char) (g : List Char), last4Search s = some g →
      ∃ i, boundary4AtB s i = true ∧ (∀ j, j < i → boundary4AtB s j = false) ∧
        g = (s.drop i).take 4 ∧ g.length = 4 := by
  intro s
  induction s with
  | nil => intro g h; exact Option.noConfusion h
  | cons a s ih =>
    intro g h
    rcases s with _ | ⟨b, s⟩
    · exact Option.noConfusion h
    · rcases s with _ | ⟨c, s⟩
      · exact Option.noConfusion h
      · rcases s with _ | ⟨d, s⟩
        · exact Option.noConfusion h
        · have h0 : boundary4AtB (a :: b :: c :: d :: s) 0 =
              (a.isDigit && b.isDigit && c.isDigit && d.isDigit && boundaryAfter s) := rfl
          have hunf : last4Search (a :: b :: c :: d :: s) =
              if (a.isDigit && b.isDigit && c.isDigit && d.isDigit && boundaryAfter s) = true
              then some [a, b, c, d]
              else last4Search (b :: c :: d :: s) := rfl
          by_cases hg : (a.isDigit && b.isDigit && c.isDigit && d.isDigit && boundaryAfter s)
            = true
          · have hres : last4Search (a :: b :: c :: d :: s) = some [a, b, c, d] := by
              rw [hunf, if_pos hg]
            rw [hres] at h
            injection h with h
            subst h
            refine ⟨0, by rw [h0]; exact hg, fun j hj => absurd hj (Nat.not_lt_zero j),
              rfl, rfl⟩
          · have hres : last4Search (a :: b :: c :: d :: s) =
                last4Search (b :: c :: d :: s) := by
              rw [hunf, if_neg hg]
            rw [hres] at h
            obtain ⟨i, hb, hmin, hgeq, hlen⟩ := ih g h
            refine ⟨i + 1, by rwa [boundary4AtB_cons], ?_, hgeq, hlen⟩
            intro j hj
            cases j with
            | zero =>
              rw [h0]
              simpa using hg
            | succ j =>
              rw [boundary4AtB_cons]
              exact hmin j (by omega)

/-- C10 counterexample: `"paid 1234x"` is transaction-like and `1234` is
its first run of four consecutive digits followed by a NON-DIGIT (`x`),
so the claim predicts `card_hint = "1234"`; but the regex requires a word
boundary, `x` is a word character, and the code omits the card hint. -/
theorem C10_counterexample_word_char :
    txnDetected "paid 1234x" = true ∧
    navLookup (tOf "paid 1234x") = none ∧
    claimFirstFourDigitRun (tNormOf "paid 1234x") = some ("1234".data) ∧
    (localParse "paid 1234x" "2025-01-01").card_hint = none :=
  ⟨rfl, rfl, rfl, rfl⟩

/-- C10 (amended): for every transaction-like input, the card hint is the
first run of four consecutive digits that is followed by a NON-WORD
character or the end of the digit-normalized text (a regex word boundary,
not merely a non-digit) — even when those digits belong to the extracted
amount; the hint is absent exactly when no position satisfies this. -/
theorem C10_card_hint_word_boundary (text currentDate : String)
    (hnav : navLookup (tOf text) = none) (hbr : txnDetected text = true) :
    ((localParse text currentDate).card_hint = none ↔
      ∀ i, boundary4AtB (tNormOf text) i = false) ∧
    (∀ h, (localParse text currentDate).card_hint = some h →
      ∃ i, boundary4AtB (tNormOf text) i = true ∧
        (∀ j, j < i → boundary4AtB (tNormOf text) j = false) ∧
        h = String.mk (((tNormOf text).drop i).take 4)) := by
  rw [localParse_txn text currentDate hnav hbr]
  rcases hl : last4Search (tNormOf text) with _ | g
  · constructor
    · constructor
      · intro _
        exact (last4Search_none_iff (tNormOf text)).mp hl
      · intro _
        simp [txnResult, hl, pyStrOptTruthy]
    · intro h hsome
      exfalso
      simp [txnResult, hl, pyStrOptTruthy] at hsome
  · obtain ⟨i, hb, hmin, hgeq, hlen⟩ := last4Search_some_spec (tNormOf text) g hl
    have hne : String.mk g ≠ "" := by
      intro he
      have hdata := congrArg String.data he
      simp at hdata
      rw [hdata] at hlen
      exact absurd hlen (by simp)
    constructor
    · constructor
      · intro hnone
        exfalso
        simp [txnResult, hl, pyStrOptTruthy, hne] at hnone
      · intro hall
        exfalso
        rw [hall i] at hb
        exact Bool.noConfusion hb
    · intro h hsome
      simp [txnResult, hl, pyStrOptTruthy, hne] at hsome
      refine ⟨i, hb, hmin, ?_⟩
      rw [← hsome, hgeq]

/-- C10 witness: the amended theorem applied to `"5000 toman"`, whose
amount digits themselves form the card hint. -/
theorem C10_card_hint_word_boundary_witness :
    navLookup (tOf "5000 toman") = none ∧
    txnDetected "5000 toman" = true ∧
    (localParse "5000 toman" "2025-01-01").amount = some 5000 ∧
    (localParse "5000 toman" "2025-01-01").card_hint = some "5000" ∧
    (∃ i, boundary4AtB (tNormOf "5000 toman") i = true ∧
      (∀ j, j < i → boundary4AtB (tNormOf "5000 toman") j = false) ∧
      "5000" = String.mk (((tNormOf "5000 toman").drop i).take 4)) :=
  ⟨rfl, rfl, rfl, rfl,
    (C10_card_hint_word_boundary "5000 toman" "2025-01-01" rfl rfl).2 "5000" rfl⟩

end FinBot
